import Mathlib

/-!
# KUnit common mock matchers (`lib/kunit/common-mocks.c`)

A shallow embedding of the argument matchers and capturers of the file, with the trace they
write to the diagnostic stream.

* C integers are mathematical integers (`Int`) together with an explicit wrap to the width and
  signedness of their C type wherever the C semantics converts.
* Memory is a finite list of bytes addressed by index; address `0` is the null pointer and is
  never readable or writable.  Multi-byte objects are little-endian.
* Code that can fault or run off the end of memory returns `Option`; `none` is the fault.
* Whatever the platform decides (signedness of plain `char`, width of `long` and of pointers,
  the text produced by `%pK`) is a parameter, `Abi`.
-/

namespace KunitMocks

/-! ## Platform parameters and C scalar types -/

/-- What the C implementation fixes and the source file leaves open. -/
structure Abi where
  /-- Plain `char` is a signed type (x86, UML) or an unsigned one (arm64). -/
  char_signed : Bool
  /-- `long` and pointers are 64 bits wide (otherwise 32). -/
  lp64 : Bool
  /-- Text printed by the `%pK` conversion for an address. -/
  fmt_pK : Nat → String

/-- Width in bits of `long`, `size_t` and of pointers (`BITS_PER_LONG`). -/
def Abi.long_bits (abi : Abi) : Nat := if abi.lp64 then 64 else 32

/-- The `type_name` argument of `DEFINE_MATCHER_WITH_TYPENAME`: one per instantiation
(lines 126-142 of the source). -/
inductive type_name where
  | u8 | u16 | u32 | u64
  | char | uchar | schar
  | short | ushort
  | int | uint
  | long | ulong
  | longlong | ulonglong
  | ptr
  deriving DecidableEq, Repr

/-- Width in bits of the C type behind a `type_name`. -/
def type_name.bits (abi : Abi) : type_name → Nat
  | .u8 => 8 | .u16 => 16 | .u32 => 32 | .u64 => 64
  | .char => 8 | .uchar => 8 | .schar => 8
  | .short => 16 | .ushort => 16
  | .int => 32 | .uint => 32
  | .long => abi.long_bits | .ulong => abi.long_bits
  | .longlong => 64 | .ulonglong => 64
  | .ptr => abi.long_bits

/-- Signedness of the C type behind a `type_name`; pointers compare as unsigned addresses. -/
def type_name.is_signed (abi : Abi) : type_name → Bool
  | .char => abi.char_signed
  | .schar => true | .short => true | .int => true | .long => true | .longlong => true
  | _ => false

/-- Conversion of a mathematical integer to a C integer type of the given width and signedness
(two's complement wrap-around). -/
def wrap (bits : Nat) (sgn : Bool) (v : Int) : Int :=
  if sgn then (v + 2 ^ (bits - 1)) % 2 ^ bits - 2 ^ (bits - 1) else v % 2 ^ bits

/-- Smallest value of the type. -/
def type_name.min (abi : Abi) (T : type_name) : Int :=
  if T.is_signed abi then -(2 ^ (T.bits abi - 1)) else 0

/-- Largest value of the type. -/
def type_name.max (abi : Abi) (T : type_name) : Int :=
  if T.is_signed abi then 2 ^ (T.bits abi - 1) - 1 else 2 ^ T.bits abi - 1

/-- The integer `v` is a value of the C type `T`. -/
def type_name.has_value (abi : Abi) (T : type_name) (v : Int) : Prop :=
  T.min abi ≤ v ∧ v ≤ T.max abi

instance (abi : Abi) (T : type_name) (v : Int) : Decidable (T.has_value abi v) := by
  unfold type_name.has_value; exact inferInstance

/-- Integer promotion: an operand whose type is narrower than `int` is converted to `int`
before it is compared or passed through `...`. -/
def promote (abi : Abi) (T : type_name) (v : Int) : Int :=
  if T.bits abi < 32 then wrap 32 true v else v

/-- The six relational operators passed as `op` to `DEFINE_MATCH_FUNC`. -/
inductive rel_op where
  | eq | ne | le | lt | ge | gt
  deriving DecidableEq, Repr

/-- The operator token, `#op` in `CMP_FORMAT`. -/
def rel_op.token : rel_op → String
  | .eq => "==" | .ne => "!=" | .le => "<=" | .lt => "<" | .ge => ">=" | .gt => ">"

/-- The relation an operator denotes on integer values. -/
def rel_op.eval : rel_op → Int → Int → Bool
  | .eq, a, e => decide (a = e)
  | .ne, a, e => decide (a ≠ e)
  | .le, a, e => decide (a ≤ e)
  | .lt, a, e => decide (a < e)
  | .ge, a, e => decide (a ≥ e)
  | .gt, a, e => decide (a > e)

/-- The C expression `actual op expected` for two operands of the C type `T`: both operands
undergo integer promotion, then the promoted values are compared. -/
def c_compare (abi : Abi) (T : type_name) (op : rel_op) (actual expected : Int) : Bool :=
  op.eval (promote abi T actual) (promote abi T expected)

/-! ## Memory, the test handle and the diagnostic stream -/

/-- One byte of memory. -/
abbrev Byte := Fin 256

/-- Modelled from the spec: `struct kunit` and its allocator `kunit_kmalloc` / `kunit_kzalloc`
are declared in `<kunit/test.h>` and defined outside this file.  The test handle stands for the
test run: the byte memory reachable from it and a test-scoped arena that hands out the
addresses from `brk` up to the end of memory and fails when that is exhausted. -/
structure kunit where
  mem : List Byte
  brk : Nat
  deriving DecidableEq

/-- Modelled from the spec: `struct kunit_stream` (the diagnostic stream) is defined outside
this file; it exposes the owning test as `stream->test` and is an append-only text sink. -/
structure kunit_stream where
  test : kunit
  text : String
  deriving DecidableEq

/-- Read `n` bytes at address `p`; the null pointer and addresses past the end of memory
fault. -/
def load_bytes (mem : List Byte) (p n : Nat) : Option (List Byte) :=
  if p = 0 ∨ mem.length < p + n then none else some ((mem.drop p).take n)

/-- Write the bytes `bs` at address `p`; the null pointer and addresses past the end of memory
fault. -/
def store_bytes (mem : List Byte) (p : Nat) (bs : List Byte) : Option (List Byte) :=
  if p = 0 ∨ mem.length < p + bs.length then none
  else some (mem.take p ++ bs ++ mem.drop (p + bs.length))

/-- Little-endian value of a byte sequence. -/
def le_decode : List Byte → Nat
  | [] => 0
  | b :: bs => b.val + 256 * le_decode bs

/-- Little-endian representation of `v` in `n` bytes. -/
def le_encode : Nat → Nat → List Byte
  | 0, _ => []
  | n + 1, v => Fin.ofNat v :: le_encode n (v / 256)

/-- The object of C type `T` stored at address `p`: `*((type *) p)`. -/
def load_val (abi : Abi) (T : type_name) (mem : List Byte) (p : Nat) : Option Int :=
  (load_bytes mem p (T.bits abi / 8)).map
    fun bs => wrap (T.bits abi) (T.is_signed abi) (le_decode bs)

/-- Store `v` as an object of C type `T` at address `p`: `*((type *) p) = v`. -/
def store_val (abi : Abi) (T : type_name) (mem : List Byte) (p : Nat) (v : Int) :
    Option (List Byte) :=
  store_bytes mem p (le_encode (T.bits abi / 8) (wrap (T.bits abi) false v).toNat)

/-- The bytes from the head of `m` up to, not including, the first NUL; running off the end of
memory without meeting a NUL faults. -/
def cstr_scan : List Byte → Option (List Byte)
  | [] => none
  | b :: rest => if b = 0 then some [] else (cstr_scan rest).map (b :: ·)

/-- The NUL-terminated string at address `p`. -/
def load_cstr (mem : List Byte) (p : Nat) : Option (List Byte) :=
  if p = 0 then none else cstr_scan (mem.drop p)

/-- Text of a byte string: one character per byte. -/
def bytes_to_string (bs : List Byte) : String :=
  String.mk (bs.map fun b => Char.ofNat b.val)

/-- Modelled from the spec: `CONVERT_TO_ACTUAL_TYPE(type, ptr)` is a macro of `<kunit/mock.h>`;
a matcher is handed a pointer to the actual argument, and the macro reads the argument, an
object of type `type`, through it: `*((type *) ptr)`. -/
def CONVERT_TO_ACTUAL_TYPE (abi : Abi) (T : type_name) (mem : List Byte) (ptr : Nat) :
    Option Int :=
  load_val abi T mem ptr

/-- Pointer arithmetic `p + i` on a byte pointer, in the width of an address. -/
def ptr_add (abi : Abi) (p : Nat) (i : Int) : Nat :=
  (((p : Int) + i) % 2 ^ abi.long_bits).toNat

/-! ## Formatted output -/

/-- Length qualifier of a conversion. -/
inductive fmt_qual where
  | none | h | l | ll
  deriving DecidableEq, Repr

/-- A conversion specification under construction: the `0` flag, the field width and the
length qualifier. -/
structure fmt_spec where
  zero_pad : Bool
  width : Nat
  qual : fmt_qual
  deriving DecidableEq, Repr

/-- Where the scanner of a format string stands. -/
inductive fmt_state where
  | text
  | flags (sp : fmt_spec)
  | width (sp : fmt_spec)
  | qual_l (sp : fmt_spec)
  | conv (sp : fmt_spec)
  | ptr (addr : Int)
  | skip_alnum
  deriving DecidableEq, Repr

/-- Width in bits of the integer a numeric conversion fetches with `va_arg`. -/
def fmt_qual.bits (abi : Abi) : fmt_qual → Nat
  | .none => 32
  | .h => 16
  | .l => abi.long_bits
  | .ll => 64

/-- Left padding of a field up to its width. -/
def pad_left (width : Nat) (c : Char) (body : List Char) : List Char :=
  List.replicate (width - body.length) c ++ body

/-- A number in the given base: sign, then the digits, padded to the field width with zeros
after the sign (flag `0`) or with blanks before it. -/
def fmt_number (base : Nat) (sp : fmt_spec) (v : Int) : List Char :=
  let digits := Nat.toDigits base v.natAbs
  let sign := if v < 0 then [ '-' ] else []
  if sp.zero_pad then
    sign ++ List.replicate (sp.width - (sign.length + digits.length)) '0' ++ digits
  else
    pad_left sp.width ' ' (sign ++ digits)

/-- The conversion character: fetch the argument in the type the conversion and its qualifier
name, and render it. -/
def step_conv (abi : Abi) (mem : List Byte) (sp : fmt_spec) (c : Char) (args : List Int) :
    Option (fmt_state × List Int × List Char) :=
  if c = '%' then some (.text, args, [ '%' ])
  else
    match args with
    | [] => none
    | a :: rest =>
      if c = 'd' ∨ c = 'i' then
        some (.text, rest, fmt_number 10 sp (wrap (sp.qual.bits abi) true a))
      else if c = 'u' then
        some (.text, rest, fmt_number 10 sp (wrap (sp.qual.bits abi) false a))
      else if c = 'x' then
        some (.text, rest, fmt_number 16 sp (wrap (sp.qual.bits abi) false a))
      else if c = 'c' then
        some (.text, rest, pad_left sp.width ' ' [Char.ofNat (wrap 8 false a).toNat])
      else if c = 's' then
        (load_cstr mem a.toNat).map
          fun bs => (.text, rest, pad_left sp.width ' ' (bytes_to_string bs).data)
      else if c = 'p' then
        some (.ptr a, rest, [])
      else none

/-- A length qualifier, or else the conversion character. -/
def step_qual (abi : Abi) (mem : List Byte) (sp : fmt_spec) (c : Char) (args : List Int) :
    Option (fmt_state × List Int × List Char) :=
  if c = 'h' then some (.conv { sp with qual := .h }, args, [])
  else if c = 'l' then some (.qual_l sp, args, [])
  else step_conv abi mem sp c args

/-- A digit of the field width, or else what follows the width. -/
def step_width (abi : Abi) (mem : List Byte) (sp : fmt_spec) (c : Char) (args : List Int) :
    Option (fmt_state × List Int × List Char) :=
  if c.isDigit then some (.width { sp with width := sp.width * 10 + (c.toNat - 48) }, args, [])
  else step_qual abi mem sp c args

/-- One character of the format string. -/
def fmt_step (abi : Abi) (mem : List Byte) (st : fmt_state) (c : Char) (args : List Int) :
    Option (fmt_state × List Int × List Char) :=
  match st with
  | .text => if c = '%' then some (.flags ⟨false, 0, .none⟩, args, []) else some (.text, args, [c])
  | .flags sp =>
    if c = '0' then some (.flags { sp with zero_pad := true }, args, [])
    else step_width abi mem sp c args
  | .width sp => step_width abi mem sp c args
  | .qual_l sp =>
    if c = 'l' then some (.conv { sp with qual := .ll }, args, [])
    else step_conv abi mem { sp with qual := .l } c args
  | .conv sp => step_conv abi mem sp c args
  | .ptr addr => if c = 'K' then some (.skip_alnum, args, (abi.fmt_pK addr.toNat).data) else none
  | .skip_alnum =>
    if c.isAlphanum then some (.skip_alnum, args, [])
    else if c = '%' then some (.flags ⟨false, 0, .none⟩, args, [])
    else some (.text, args, [c])

/-- The scanner over the whole format string. -/
def fmt_run (abi : Abi) (mem : List Byte) : fmt_state → List Char → List Int →
    Option (List Char)
  | st, [], _ => if st = .text ∨ st = .skip_alnum then some [] else none
  | st, c :: cs, args =>
    match fmt_step abi mem st c args with
    | none => none
    | some (st1, args1, out) => (fmt_run abi mem st1 cs args1).map (out ++ ·)

/-- Modelled from the spec: `vsnprintf` (`lib/vsprintf.c`) is defined outside this file.  The
conversions the format strings of this file use: `%d %u %x %c %s %pK`, the qualifiers `h`, `l`,
`ll`, the flag `0` and a field width.  An integer argument is passed after integer promotion
and fetched in the type the conversion names; a pointer argument is passed as its address; a
format the model does not cover faults. -/
def vsnprintf (abi : Abi) (mem : List Byte) (fmt : String) (args : List Int) : Option String :=
  (fmt_run abi mem .text fmt.data args).map String.mk

/-- Modelled from the spec: `kunit_stream_add` is defined outside this file; it appends the
formatted text to the diagnostic stream. -/
def kunit_stream_add (abi : Abi) (stream : kunit_stream) (fmt : String) (args : List Int) :
    Option kunit_stream :=
  (vsnprintf abi stream.test.mem fmt args).map
    fun out => { stream with text := stream.text ++ out }

/-- Modelled from the spec: `kunit_kmalloc(test, size, gfp)`, the test-scoped allocator.  It
returns the address of `size` fresh bytes of the arena, or the null pointer when the arena
cannot hold them. -/
def kunit_kmalloc (test : kunit) (size : Nat) : Nat × kunit :=
  if test.brk = 0 ∨ test.mem.length < test.brk + size then (0, test)
  else (test.brk, { test with brk := test.brk + size })

/-- Modelled from the spec: `kunit_kzalloc(test, size, gfp)`, the zero-initialising variant of
`kunit_kmalloc`. -/
def kunit_kzalloc (test : kunit) (size : Nat) : Nat × kunit :=
  if test.brk = 0 ∨ test.mem.length < test.brk + size then (0, test)
  else (test.brk,
    { mem := test.mem.take test.brk ++ List.replicate size 0 ++ test.mem.drop (test.brk + size),
      brk := test.brk + size })

/-! ## Matchers -/

/-- Modelled from the spec: `struct mock_param_matcher` is declared in `<kunit/mock.h>`; it
holds the `match` operation.  The operation of a concrete matcher is its match function
applied to the fields of the enclosing structure (what `container_of` recovers in C); a
pointer to a matcher is an `Option`, `none` being `NULL`. -/
structure mock_param_matcher where
  match_ : kunit_stream → Nat → Option (Bool × kunit_stream)

/-- The table `FORMAT_<type_name>` (lines 46-61). -/
def TYPE_FRMT : type_name → String
  | .u8 => "%hu"
  | .u16 => "%hu"
  | .u32 => "%u"
  | .u64 => "%llu"
  | .char => "%c"
  | .uchar => "%c"
  | .schar => "%c"
  | .short => "%hd"
  | .ushort => "%hu"
  | .int => "%d"
  | .uint => "%u"
  | .long => "%ld"
  | .ulong => "%lu"
  | .longlong => "%lld"
  | .ulonglong => "%llu"
  | .ptr => "%pK"

/-- `CMP_FORMAT(type_name, msg, op)`: the concatenation of string literals
`TYPE_FRMT(type_name) msg " " #op " " TYPE_FRMT(type_name)`. -/
def CMP_FORMAT (T : type_name) (msg : String) (op : rel_op) : String :=
  TYPE_FRMT T ++ msg ++ " " ++ op.token ++ " " ++ TYPE_FRMT T

/-- `DEFINE_MATCH_FUNC(type_name, type, op_name, op)`: the function `match_<type_name>_<op_name>`
for the matcher whose `expected` field holds `expected`. -/
def DEFINE_MATCH_FUNC (abi : Abi) (T : type_name) (op : rel_op) (expected : Int)
    (stream : kunit_stream) (pactual : Nat) : Option (Bool × kunit_stream) :=
  match load_val abi T stream.test.mem pactual with
  | none => none
  | some actual =>
    let matches_ := c_compare abi T op actual expected
    if matches_ then
      (kunit_stream_add abi stream (CMP_FORMAT T "" op)
        [promote abi T actual, promote abi T expected]).map fun s => (matches_, s)
    else
      (kunit_stream_add abi stream (CMP_FORMAT T " not" op)
        [promote abi T actual, promote abi T expected]).map fun s => (matches_, s)

/-- Size of `struct mock_<type_name>_matcher`: the `match` pointer and `expected`, each on
its natural alignment. -/
def sizeof_mock_matcher (abi : Abi) (T : type_name) : Nat :=
  2 * Nat.max (abi.long_bits / 8) (T.bits abi / 8)

/-- `DEFINE_MATCH_FACTORY(type_name, type, op_name)`: the constructor
`kunit_<type_name>_<op_name>(test, expected)`.  The result is the matcher handle (`none` is
`NULL`) and the test after the allocation. -/
def DEFINE_MATCH_FACTORY (abi : Abi) (T : type_name) (op : rel_op) (test : kunit)
    (expected : Int) : Option mock_param_matcher × kunit :=
  let (matcher, test1) := kunit_kmalloc test (sizeof_mock_matcher abi T)
  if matcher = 0 then (none, test1)
  else (some ⟨DEFINE_MATCH_FUNC abi T op expected⟩, test1)

/-- The constructor `kunit_int_eq`. -/
def kunit_int_eq (abi : Abi) : kunit → Int → Option mock_param_matcher × kunit :=
  DEFINE_MATCH_FACTORY abi .int .eq

/-! ## Vocabulary of the properties -/

/-- The integer instantiations: every `type_name` but the three character types (printed with
`%c`) and the pointer (printed with `%pK`). -/
def type_name.is_integer : type_name → Bool
  | .char => false | .uchar => false | .schar => false | .ptr => false
  | _ => true

/-- Decimal text of an integer: a minus sign for a negative value, then the digits. -/
def decimal (v : Int) : String :=
  String.mk ((if v < 0 then [ '-' ] else []) ++ Nat.toDigits 10 v.natAbs)

/-- Text the conversion `TYPE_FRMT T` prints for the promoted argument `a`. -/
def conv_text (abi : Abi) (T : type_name) (a : Int) : List Char :=
  match T with
  | .u8 | .u16 | .ushort => fmt_number 10 ⟨false, 0, .h⟩ (wrap 16 false a)
  | .u32 | .uint => fmt_number 10 ⟨false, 0, .none⟩ (wrap 32 false a)
  | .u64 | .ulonglong => fmt_number 10 ⟨false, 0, .ll⟩ (wrap 64 false a)
  | .char | .uchar | .schar => [Char.ofNat (wrap 8 false a).toNat]
  | .short => fmt_number 10 ⟨false, 0, .h⟩ (wrap 16 true a)
  | .int => fmt_number 10 ⟨false, 0, .none⟩ (wrap 32 true a)
  | .long => fmt_number 10 ⟨false, 0, .l⟩ (wrap abi.long_bits true a)
  | .ulong => fmt_number 10 ⟨false, 0, .l⟩ (wrap abi.long_bits false a)
  | .longlong => fmt_number 10 ⟨false, 0, .ll⟩ (wrap 64 true a)
  | .ptr => (abi.fmt_pK a.toNat).data

/-! ## Concrete platforms and machine states used to run the code -/

/-- A 64-bit platform with unsigned plain `char` (arm64). -/
def abi_arm64 : Abi := ⟨false, true, fun p => String.mk (pad_left 16 '0' (Nat.toDigits 16 p))⟩

/-- A 64-bit platform with signed plain `char` (x86-64, UML). -/
def abi_x86_64 : Abi := ⟨true, true, fun p => String.mk (pad_left 16 '0' (Nat.toDigits 16 p))⟩

/-- A memory holding the `int` 42 at address 1, the `int` 7 at address 5, the byte `0xff` at
address 9, and a free arena from address 16. -/
def mem_ints : List Byte :=
  [0, 42, 0, 0, 0, 7, 0, 0, 0, 0xff, 0, 0, 0, 0, 0, 0] ++ List.replicate 48 0

/-- The test run over `mem_ints`. -/
def test_ints : kunit := ⟨mem_ints, 16⟩

/-! ## Memory and string matchers -/

/-- The `unsigned char` at address `p`. -/
def load_u8 (mem : List Byte) (p : Nat) : Option Int :=
  (load_bytes mem p 1).map fun bs => (le_decode bs : Int)

/-- Modelled from the spec: `memcmp` (`<linux/string.h>`) is defined outside this file.  It
compares `count` bytes as `unsigned char` from the lowest address up and returns the
difference of the first pair that differs, or zero when none does. -/
def memcmp (mem : List Byte) (cs ct : Nat) : Nat → Option Int
  | 0 => some 0
  | count + 1 =>
    match load_u8 mem cs, load_u8 mem ct with
    | some su1, some su2 =>
      if su1 - su2 ≠ 0 then some (su1 - su2) else memcmp mem (cs + 1) (ct + 1) count
    | _, _ => none

/-- The loop `for (i = 0; i < matcher->size; i++) kunit_stream_add(stream, "%02x, ",
((const char *) buf)[i]);` of `match_memeq`, entered with the counter at `i`.  The counter is
an `int` that wraps around (the kernel is built with `-fno-strict-overflow`); it is compared
after conversion to `size_t`; the element is a plain `char`, promoted to `int` on its way
through `...`.  `fuel` bounds the number of iterations; `size` iterations are always enough. -/
def memeq_dump (abi : Abi) (buf size : Nat) : Nat → Int → kunit_stream → Option kunit_stream
  | 0, i, stream => if (wrap abi.long_bits false i).toNat < size then none else some stream
  | fuel + 1, i, stream =>
    if (wrap abi.long_bits false i).toNat < size then
      match load_val abi .char stream.test.mem (ptr_add abi buf i) with
      | none => none
      | some c =>
        match kunit_stream_add abi stream "%02x, " [promote abi .char c] with
        | none => none
        | some stream1 => memeq_dump abi buf size fuel (wrap 32 true (i + 1)) stream1
    else some stream

/-- The function `match_memeq` for the matcher with fields `expected` and `size`. -/
def match_memeq (abi : Abi) (expected size : Nat) (stream : kunit_stream) (pactual : Nat) :
    Option (Bool × kunit_stream) := do
  let actual ← CONVERT_TO_ACTUAL_TYPE abi .ptr stream.test.mem pactual
  let res ← memcmp stream.test.mem actual.toNat expected size
  let matches_ := decide (res = 0)
  let stream1 ← memeq_dump abi actual.toNat size size 0 stream
  let stream2 ← if matches_ then kunit_stream_add abi stream1 "== " []
    else kunit_stream_add abi stream1 "!= " []
  let stream3 ← memeq_dump abi expected size size 0 stream2
  some (matches_, stream3)

/-- The constructor `kunit_memeq(test, buf, size)`; `struct mock_memeq_matcher` is three words. -/
def kunit_memeq (abi : Abi) (test : kunit) (buf size : Nat) :
    Option mock_param_matcher × kunit :=
  let (matcher, test1) := kunit_kzalloc test (3 * (abi.long_bits / 8))
  if matcher = 0 then (none, test1)
  else (some ⟨match_memeq abi buf size⟩, test1)

/-- A memory for `match_memeq`: at address 8 a pointer to address 24; the actual bytes
`01 03` at 24; the expected bytes `01 02` at 32; the byte `80` at 40 and at 41; at address 16 a
pointer to address 40; a free arena from address 48. -/
def mem_bufs : List Byte :=
  [0, 0, 0, 0, 0, 0, 0, 0,
   24, 0, 0, 0, 0, 0, 0, 0,
   40, 0, 0, 0, 0, 0, 0, 0,
   0x01, 0x03, 0, 0, 0, 0, 0, 0,
   0x01, 0x02, 0, 0, 0, 0, 0, 0,
   0x80, 0x80, 0, 0, 0, 0, 0, 0] ++ List.replicate 48 0

/-- The test run over `mem_bufs`. -/
def test_bufs : kunit := ⟨mem_bufs, 48⟩

/-- Two lower-case hexadecimal digits of a byte. -/
def hex2 (b : Byte) : String :=
  String.mk [Nat.digitChar (b.val / 16), Nat.digitChar (b.val % 16)]

/-- The dump of a buffer: every byte as two hexadecimal digits followed by `", "`. -/
def hex_dump : List Byte → String
  | [] => ""
  | b :: bs => hex2 b ++ ", " ++ hex_dump bs

/-- The list `p` is an initial segment of `t`. -/
def starts_with (p t : List Char) : Bool :=
  decide (t.take p.length = p)

/-- The pieces occur in the text one after the other, in this order, without overlap. -/
def occur_in_order : List String → List Char → Bool
  | [], _ => true
  | p :: ps, t =>
    (List.range (t.length + 1)).any fun i =>
      starts_with p.data (t.drop i) && occur_in_order ps (t.drop (i + p.data.length))

/-- Modelled from the spec: `strcmp` (`<linux/string.h>`) is defined outside this file.  It
walks both strings from their first byte, returns -1 or 1 at the first pair of bytes that
differs (compared as `unsigned char`) and 0 when it meets the terminating NUL in both. -/
def strcmp_scan : List Byte → List Byte → Option Int
  | c1 :: cs, c2 :: ct =>
    if c1 ≠ c2 then some (if c1 < c2 then -1 else 1)
    else if c1 = 0 then some 0
    else strcmp_scan cs ct
  | _, _ => none

/-- The call `strcmp(cs, ct)` on two addresses. -/
def strcmp (mem : List Byte) (cs ct : Nat) : Option Int :=
  if cs = 0 ∨ ct = 0 then none else strcmp_scan (mem.drop cs) (mem.drop ct)

/-- Modelled from the spec: `strlen` (`<linux/string.h>`) is defined outside this file: the
number of bytes before the terminating NUL. -/
def strlen (mem : List Byte) (s : Nat) : Option Nat :=
  (load_cstr mem s).map List.length

/-- The loop of `strstr`: `while (l1 >= l2) { l1--; if (!memcmp(s1, s2, l2)) return s1; s1++; }
return NULL;`, by recursion on `l1`. -/
def strstr_loop (mem : List Byte) (s2 l2 : Nat) : Nat → Nat → Option Nat
  | 0, s1 => if l2 = 0 then some s1 else some 0
  | l1 + 1, s1 =>
    if l1 + 1 ≥ l2 then
      match memcmp mem s1 s2 l2 with
      | none => none
      | some r => if r = 0 then some s1 else strstr_loop mem s2 l2 l1 (s1 + 1)
    else some 0

/-- Modelled from the spec: `strstr` (`<linux/string.h>`) is defined outside this file.  It
returns `s1` when `s2` is empty; otherwise it tries every position of `s1` that leaves room
for `s2`, from the first on, and returns the address of the first occurrence of `s2`, or the
null pointer when there is none. -/
def strstr (mem : List Byte) (s1 s2 : Nat) : Option Nat := do
  let l2 ← strlen mem s2
  if l2 = 0 then some s1
  else
    let l1 ← strlen mem s1
    strstr_loop mem s2 l2 l1 s1

/-- The function `match_streq` for the matcher with field `expected`. -/
def match_streq (abi : Abi) (expected : Nat) (stream : kunit_stream) (pactual : Nat) :
    Option (Bool × kunit_stream) := do
  let actual ← CONVERT_TO_ACTUAL_TYPE abi .ptr stream.test.mem pactual
  let res ← strcmp stream.test.mem actual.toNat expected
  let matches_ := decide (res = 0)
  if matches_ then
    let stream1 ← kunit_stream_add abi stream "%s == %s" [actual, expected]
    some (matches_, stream1)
  else
    let stream1 ← kunit_stream_add abi stream "%s != %s" [actual, expected]
    some (matches_, stream1)

/-- The constructor `kunit_streq(test, str)`; `struct mock_streq_matcher` is two words. -/
def kunit_streq (abi : Abi) (test : kunit) (str : Nat) : Option mock_param_matcher × kunit :=
  let (matcher, test1) := kunit_kzalloc test (2 * (abi.long_bits / 8))
  if matcher = 0 then (none, test1)
  else (some ⟨match_streq abi str⟩, test1)

/-- The function `match_str_contains` for the matcher with field `needle`. -/
def match_str_contains (abi : Abi) (needle : Nat) (stream : kunit_stream) (phaystack : Nat) :
    Option (Bool × kunit_stream) := do
  let haystack ← CONVERT_TO_ACTUAL_TYPE abi .ptr stream.test.mem phaystack
  let found ← strstr stream.test.mem haystack.toNat needle
  let matches_ := decide (found ≠ 0)
  if matches_ then
    let stream1 ← kunit_stream_add abi stream "'%s' found in '%s'" [needle, haystack]
    some (matches_, stream1)
  else
    let stream1 ← kunit_stream_add abi stream "'%s' not found in '%s'" [needle, haystack]
    some (matches_, stream1)

/-- The constructor `kunit_str_contains(test, str)`; `struct mock_str_contains_matcher` is two
words. -/
def kunit_str_contains (abi : Abi) (test : kunit) (str : Nat) :
    Option mock_param_matcher × kunit :=
  let (matcher, test1) := kunit_kzalloc test (2 * (abi.long_bits / 8))
  if matcher = 0 then (none, test1)
  else (some ⟨match_str_contains abi str⟩, test1)

/-- A memory of strings: at address 8 a pointer to address 32, at address 16 a pointer to
address 48, at address 24 a pointer to address 38; `"hello"` at 32, the empty string at 37
and at 38, `"ell"` at 40, `"ok"` at 44, `"ok"` at 48, `"elx"` at 52; a free arena from 64. -/
def mem_strs : List Byte :=
  [0, 0, 0, 0, 0, 0, 0, 0,
   32, 0, 0, 0, 0, 0, 0, 0,
   48, 0, 0, 0, 0, 0, 0, 0,
   38, 0, 0, 0, 0, 0, 0, 0,
   104, 101, 108, 108, 111, 0, 0, 0,
   101, 108, 108, 0, 111, 107, 0, 0,
   111, 107, 0, 0, 101, 108, 120, 0,
   0, 0, 0, 0, 0, 0, 0, 0] ++ List.replicate 32 0

/-- The test run over `mem_strs`. -/
def test_strs : kunit := ⟨mem_strs, 64⟩

/-! ## Struct matcher -/

/-- Modelled from the spec: `struct mock_struct_matcher_entry` is declared in
`<kunit/mock.h>`; it holds the byte offset of a member and the matcher for it, and an entry
whose `matcher` is null ends the array. -/
structure mock_struct_matcher_entry where
  member_offset : Nat
  matcher : Option mock_param_matcher

/-- The loop `for (entry = matcher->entries; entry->matcher; entry++)` of `match_struct`,
entered with the accumulated verdict `matches_`.  The array is the list of its entries; walking
past its last entry is the fault. -/
def match_struct_loop (abi : Abi) (actual : Nat) :
    List mock_struct_matcher_entry → Bool → kunit_stream → Option (Bool × kunit_stream)
  | [], _, _ => none
  | entry :: rest, matches_, stream =>
    match entry.matcher with
    | none => some (matches_, stream)
    | some child =>
      match child.match_ stream (ptr_add abi actual entry.member_offset) with
      | none => none
      | some (tmp, stream1) =>
        match kunit_stream_add abi stream1 ", " [] with
        | none => none
        | some stream2 => match_struct_loop abi actual rest (matches_ && tmp) stream2

/-- The function `match_struct` for the matcher with fields `struct_name` and `entries`. -/
def match_struct (abi : Abi) (struct_name : Nat) (entries : List mock_struct_matcher_entry)
    (stream : kunit_stream) (pactual : Nat) : Option (Bool × kunit_stream) := do
  let actual ← CONVERT_TO_ACTUAL_TYPE abi .ptr stream.test.mem pactual
  let stream1 ← kunit_stream_add abi stream "struct %s \x7b" [struct_name]
  let (matches_, stream2) ← match_struct_loop abi actual.toNat entries true stream1
  let stream3 ← kunit_stream_add abi stream2 "\x7d" []
  some (matches_, stream3)

/-- The constructor `kunit_struct_cmp(test, struct_name, entries)`; `struct
mock_struct_matcher` is three words. -/
def kunit_struct_cmp (abi : Abi) (test : kunit) (struct_name : Nat)
    (entries : List mock_struct_matcher_entry) : Option mock_param_matcher × kunit :=
  let (matcher, test1) := kunit_kzalloc test (3 * (abi.long_bits / 8))
  if matcher = 0 then (none, test1)
  else (some ⟨match_struct abi struct_name entries⟩, test1)

/-- The fields of a struct matcher run one after the other: each child once, in order, on
`base` plus its offset, each on the stream the one before left, `", "` after each; the
verdicts are collected in order. -/
def run_fields (base : Nat) :
    List (Nat × mock_param_matcher) → kunit_stream → Option (List Bool × kunit_stream)
  | [], stream => some ([], stream)
  | (offset, child) :: rest, stream =>
    match child.match_ stream (base + offset) with
    | none => none
    | some (verdict, stream1) =>
      match run_fields base rest { stream1 with text := stream1.text ++ ", " } with
      | none => none
      | some (verdicts, stream2) => some (verdict :: verdicts, stream2)

/-- A memory holding a structure at address 32: the `int` 5 at offset 0 and, at offset 4, a
pointer to the string `"ok"` stored at 56.  Address 8 holds a pointer to the structure, address
48 the name `"foo"`, address 60 the string `"ok"`; address 64 holds a second structure whose
`int` is 6 and whose pointer is the same, and address 16 a pointer to it.  The arena starts
at 80. -/
def mem_struct : List Byte :=
  [0, 0, 0, 0, 0, 0, 0, 0,
   32, 0, 0, 0, 0, 0, 0, 0,
   64, 0, 0, 0, 0, 0, 0, 0,
   0, 0, 0, 0, 0, 0, 0, 0,
   5, 0, 0, 0, 56, 0, 0, 0,
   0, 0, 0, 0, 0, 0, 0, 0,
   102, 111, 111, 0, 0, 0, 0, 0,
   111, 107, 0, 0, 111, 107, 0, 0,
   6, 0, 0, 0, 56, 0, 0, 0,
   0, 0, 0, 0, 0, 0, 0, 0] ++ List.replicate 112 0

/-- The test run over `mem_struct`. -/
def test_struct : kunit := ⟨mem_struct, 80⟩

/-- The entries `{offset 0: int eq 5}, {offset 4: streq "ok"}` and the sentinel. -/
def entries_int_str (abi : Abi) : List mock_struct_matcher_entry :=
  [⟨0, some ⟨DEFINE_MATCH_FUNC abi .int .eq 5⟩⟩, ⟨4, some ⟨match_streq abi 60⟩⟩, ⟨0, none⟩]

/-! ## Capturers -/

/-- Modelled from the spec: `struct mock_param_capturer` is declared in `<kunit/mock.h>`; it
holds the child matcher, the capture function and the slot `captured_param`, and its own
`matcher.match` is `match_and_capture_param`. -/
structure mock_param_capturer where
  child_matcher : Option mock_param_matcher
  capture_param : kunit → Nat → Option (Nat × kunit)
  captured_param : Nat

/-- The function `match_and_capture_param` for the capturer that encloses the matcher; the
result carries the capturer after the call.  `capture_param` works on `stream->test`. -/
def match_and_capture_param (capturer : mock_param_capturer) (stream : kunit_stream)
    (param : Nat) : Option (Bool × kunit_stream × mock_param_capturer) :=
  match capturer.child_matcher with
  | none => none
  | some child_matcher =>
    match child_matcher.match_ stream param with
    | none => none
    | some (matches_, stream1) =>
      if matches_ then
        match capturer.capture_param stream1.test param with
        | none => none
        | some (captured, test1) =>
          some (matches_, { stream1 with test := test1 },
            { capturer with captured_param := captured })
      else some (matches_, stream1, capturer)

/-- The constructor `mock_param_capturer_create(test, child_matcher, capture_param)`; `struct
mock_param_capturer` is four words. -/
def mock_param_capturer_create (abi : Abi) (test : kunit)
    (child_matcher : Option mock_param_matcher)
    (capture_param : kunit → Nat → Option (Nat × kunit)) :
    Option mock_param_capturer × kunit :=
  let (capturer, test1) := kunit_kzalloc test (4 * (abi.long_bits / 8))
  if capturer = 0 then (none, test1)
  else (some ⟨child_matcher, capture_param, 0⟩, test1)

/-- The function `mock_capture_int`. -/
def mock_capture_int (abi : Abi) (test : kunit) (param : Nat) : Option (Nat × kunit) :=
  match CONVERT_TO_ACTUAL_TYPE abi .int test.mem param with
  | none => none
  | some value =>
    let (pvalue, test1) := kunit_kzalloc test (type_name.bits abi .int / 8)
    if pvalue = 0 then some (0, test1)
    else
      match store_val abi .int test1.mem pvalue value with
      | none => none
      | some mem1 => some (pvalue, { test1 with mem := mem1 })

/-- The constructor `mock_int_capturer_create(test, child_matcher)`. -/
def mock_int_capturer_create (abi : Abi) (test : kunit)
    (child_matcher : Option mock_param_matcher) : Option mock_param_capturer × kunit :=
  mock_param_capturer_create abi test child_matcher (mock_capture_int abi)

/-- The function `mock_capture_ptr`: the store `*pptr = ptr` follows the allocation without a
test of its result. -/
def mock_capture_ptr (abi : Abi) (test : kunit) (param : Nat) : Option (Nat × kunit) :=
  match CONVERT_TO_ACTUAL_TYPE abi .ptr test.mem param with
  | none => none
  | some ptr =>
    let (pptr, test1) := kunit_kzalloc test (type_name.bits abi .ptr / 8)
    match store_val abi .ptr test1.mem pptr ptr with
    | none => none
    | some mem1 => some (pptr, { test1 with mem := mem1 })

/-- The constructor `mock_ptr_capturer_create(test, child_matcher)`. -/
def mock_ptr_capturer_create (abi : Abi) (test : kunit)
    (child_matcher : Option mock_param_matcher) : Option mock_param_capturer × kunit :=
  mock_param_capturer_create abi test child_matcher (mock_capture_ptr abi)

/-! ## The wildcard matcher -/

/-- The function `match_any`. -/
def match_any (abi : Abi) (stream : kunit_stream) (_actual : Nat) :
    Option (Bool × kunit_stream) :=
  (kunit_stream_add abi stream "don't care" []).map fun stream1 => (true, stream1)

/-- The static object `any_matcher`. -/
def any_matcher (abi : Abi) : mock_param_matcher := ⟨match_any abi⟩

/-- The function `kunit_any(test)`: the address of `any_matcher`; the test is not used. -/
def kunit_any (abi : Abi) (test : kunit) : Option mock_param_matcher × kunit :=
  (some (any_matcher abi), test)

/-! ## The matcher for `struct va_format` -/

/-- Modelled from the spec: `struct va_format` (`<linux/printk.h>`) is declared outside this
file: the member `fmt`, a `const char *`, at offset 0, followed by the member `va`, a
`va_list *`. -/
def offsetof_va_format_fmt : Nat := 0

/-- Offset of the member `va` of `struct va_format`: one pointer after `fmt`. -/
def offsetof_va_format_va (abi : Abi) : Nat := abi.long_bits / 8

/-- Modelled from the spec: `INIT_MOCK_STRUCT_MATCHER_ENTRY(entry, type, member, matcher)` is a
macro of `<kunit/mock.h>`: the entry gets the offset of the member and the matcher. -/
def INIT_MOCK_STRUCT_MATCHER_ENTRY (member_offset : Nat) (matcher : Option mock_param_matcher) :
    mock_struct_matcher_entry :=
  ⟨member_offset, matcher⟩

/-- Modelled from the spec: `INIT_MOCK_STRUCT_MATCHER_ENTRY_LAST(entry)` of `<kunit/mock.h>`
makes the entry the sentinel: its matcher is null (the offset stays zero, as allocated). -/
def INIT_MOCK_STRUCT_MATCHER_ENTRY_LAST : mock_struct_matcher_entry :=
  ⟨0, none⟩

/-- The constructor `kunit_va_format_cmp(test, fmt_matcher, va_matcher)`.  The three entries
are allocated first (an entry is two words); `str_va_format` is the address of the string
literal `"va_format"`. -/
def kunit_va_format_cmp (abi : Abi) (str_va_format : Nat) (test : kunit)
    (fmt_matcher va_matcher : Option mock_param_matcher) :
    Option mock_param_matcher × kunit :=
  let (entries, test1) := kunit_kzalloc test (2 * (abi.long_bits / 8) * 3)
  if entries = 0 then (none, test1)
  else
    kunit_struct_cmp abi test1 str_va_format
      [INIT_MOCK_STRUCT_MATCHER_ENTRY offsetof_va_format_fmt fmt_matcher,
       INIT_MOCK_STRUCT_MATCHER_ENTRY (offsetof_va_format_va abi) va_matcher,
       INIT_MOCK_STRUCT_MATCHER_ENTRY_LAST]

/-! ## A sequence of calls on a capturer -/

/-- The calls `match(param)` made one after the other on a capturer, each on the stream and the
capturer the call before left; for every call the verdict and the slot after the call. -/
def capture_calls : mock_param_capturer → kunit_stream → List Nat →
    Option (List (Bool × Nat) × kunit_stream × mock_param_capturer)
  | capturer, stream, [] => some ([], stream, capturer)
  | capturer, stream, param :: rest =>
    match match_and_capture_param capturer stream param with
    | none => none
    | some (verdict, stream1, capturer1) =>
      match capture_calls capturer1 stream1 rest with
      | none => none
      | some (log, stream2, capturer2) =>
        some ((verdict, capturer1.captured_param) :: log, stream2, capturer2)

/-- How many times the slot changes along a log of calls, starting from the value `slot`. -/
def slot_changes : Nat → List (Bool × Nat) → Nat
  | _, [] => 0
  | slot, (_, after) :: log => (if after = slot then 0 else 1) + slot_changes after log

/-- How many calls of a log returned true. -/
def true_calls (log : List (Bool × Nat)) : Nat :=
  (log.filter fun e => e.1).length

/-! ## Actions -/

/-- Modelled from the spec: `struct mock_action` is declared in `<kunit/mock.h>`; it holds the
operation `do_action(action, params, len)`.  The operation runs on the state of the test,
gets the address of the array of parameter pointers and its length, and returns a pointer. -/
structure mock_action where
  do_action : kunit → Nat → Int → Option (Nat × kunit)

/-- The `type_name` argument of `DEFINE_RETURN_ACTION_WITH_TYPENAME`: `bool` and the
instantiations of the matchers (lines 472-488). -/
inductive return_type_name where
  | bool
  | of (T : type_name)
  deriving DecidableEq, Repr

/-- The scalar type that has the object representation of the return type: a `bool` is stored
as one byte holding 0 or 1. -/
def return_type_name.object_type : return_type_name → type_name
  | .bool => .uchar
  | .of T => T

/-- The integer `v` is a value of the return type. -/
def return_type_name.has_value (abi : Abi) : return_type_name → Int → Prop
  | .bool, v => v = 0 ∨ v = 1
  | .of T, v => T.has_value abi v

/-- Size in bytes of the return type. -/
def return_type_name.size (abi : Abi) (T : return_type_name) : Nat :=
  T.object_type.bits abi / 8

/-- Offset of the member `ret` in `struct mock_<type_name>_action`: after the one pointer of
`struct mock_action`, on the natural alignment of the type. -/
def offsetof_ret (abi : Abi) (T : return_type_name) : Nat :=
  Nat.max (abi.long_bits / 8) (T.size abi)

/-- Size of `struct mock_<type_name>_action`. -/
def sizeof_mock_action (abi : Abi) (T : return_type_name) : Nat :=
  2 * Nat.max (abi.long_bits / 8) (T.size abi)

/-- `DEFINE_RETURN_ACTION_FUNC(type_name, type)`: the function `do_<type_name>_return` for the
action object at address `paction`: the address of its member `ret`. -/
def DEFINE_RETURN_ACTION_FUNC (abi : Abi) (T : return_type_name) (paction : Nat)
    (test : kunit) (_params : Nat) (_len : Int) : Option (Nat × kunit) :=
  some (paction + offsetof_ret abi T, test)

/-- `DEFINE_RETURN_ACTION_FACTORY(type_name, type)`: the constructor
`kunit_<type_name>_return(test, ret)`.  The store `action->ret = ret` goes to memory; the outer
`none` is a fault of that store. -/
def DEFINE_RETURN_ACTION_FACTORY (abi : Abi) (T : return_type_name) (test : kunit)
    (ret : Int) : Option (Option mock_action × kunit) :=
  let (action, test1) := kunit_kmalloc test (sizeof_mock_action abi T)
  if action = 0 then some (none, test1)
  else
    match store_val abi T.object_type test1.mem (action + offsetof_ret abi T) ret with
    | none => none
    | some mem1 =>
      some (some ⟨DEFINE_RETURN_ACTION_FUNC abi T action⟩, { test1 with mem := mem1 })

/-- The `struct mock_invoke_action`: the pointer `test` and the function `invokable`.  The
function gets the pointer to the test, the state of the test, the array of parameter pointers
and its length. -/
structure mock_invoke_action where
  test : Nat
  invokable : Nat → kunit → Nat → Int → Option (Nat × kunit)

/-- The function `do_invoke` for the enclosing `struct mock_invoke_action`. -/
def do_invoke (action : mock_invoke_action) (state : kunit) (params : Nat) (len : Int) :
    Option (Nat × kunit) :=
  action.invokable action.test state params len

/-- The constructor `invoke(test, invokable)`; `ptest` is the pointer `test`, `test` the state
of the test it points to; `struct mock_invoke_action` is three words. -/
def invoke (abi : Abi) (ptest : Nat) (test : kunit)
    (invokable : Nat → kunit → Nat → Int → Option (Nat × kunit)) :
    Option mock_action × kunit :=
  let (action, test1) := kunit_kmalloc test (3 * (abi.long_bits / 8))
  if action = 0 then (none, test1)
  else (some ⟨do_invoke ⟨ptest, invokable⟩⟩, test1)

/-! ## Struct formatter -/

/-- Modelled from the spec: `struct mock_param_formatter` is declared in `<kunit/mock.h>`; it
holds the name of the type it formats and the operation `format(formatter, stream, param)`. -/
structure mock_param_formatter where
  type_name : Nat
  format : kunit_stream → Nat → Option kunit_stream

/-- Modelled from the spec: `struct mock_struct_formatter_entry` is declared in
`<kunit/mock.h>`; it holds the byte offset of a member and the formatter for it, and an entry
whose `formatter` is null ends the array. -/
structure mock_struct_formatter_entry where
  member_offset : Nat
  formatter : Option mock_param_formatter

/-- The loop `for (entry = formatter->entries; entry->formatter; entry++)` of
`mock_format_struct`; walking past the last entry of the array is the fault. -/
def mock_format_struct_loop (abi : Abi) (param : Nat) :
    List mock_struct_formatter_entry → kunit_stream → Option kunit_stream
  | [], _ => none
  | entry :: rest, stream =>
    match entry.formatter with
    | none => some stream
    | some child =>
      match child.format stream (ptr_add abi param entry.member_offset) with
      | none => none
      | some stream1 =>
        match kunit_stream_add abi stream1 ", " [] with
        | none => none
        | some stream2 => mock_format_struct_loop abi param rest stream2

/-- The function `mock_format_struct` for the formatter with fields `type_name` and
`entries`. -/
def mock_format_struct (abi : Abi) (type_name : Nat)
    (entries : List mock_struct_formatter_entry) (stream : kunit_stream) (pparam : Nat) :
    Option kunit_stream := do
  let param ← CONVERT_TO_ACTUAL_TYPE abi .ptr stream.test.mem pparam
  let stream1 ← kunit_stream_add abi stream "%s \x7b" [type_name]
  let stream2 ← mock_format_struct_loop abi param.toNat entries stream1
  kunit_stream_add abi stream2 "\x7d" []

/-- The constructor `mock_struct_formatter(test, type_name, entries)`; `struct
mock_struct_formatter` is four words. -/
def mock_struct_formatter (abi : Abi) (test : kunit) (type_name : Nat)
    (entries : List mock_struct_formatter_entry) : Option mock_param_formatter × kunit :=
  let (formatter, test1) := kunit_kzalloc test (4 * (abi.long_bits / 8))
  if formatter = 0 then (none, test1)
  else (some ⟨type_name, mock_format_struct abi type_name entries⟩, test1)

/-- The fields of a struct formatter run one after the other: each child once, in order, on
`base` plus its offset, each on the stream the one before left, `", "` after each. -/
def run_format_fields (base : Nat) :
    List (Nat × mock_param_formatter) → kunit_stream → Option kunit_stream
  | [], stream => some stream
  | (offset, child) :: rest, stream =>
    match child.format stream (base + offset) with
    | none => none
    | some stream1 => run_format_fields base rest { stream1 with text := stream1.text ++ ", " }

/-- Along a log of calls that starts with the slot at `slot`, every call whose verdict is false
leaves the slot as the call found it. -/
def kept_when_false : Nat → List (Bool × Nat) → Prop
  | _, [] => True
  | slot, (verdict, after) :: log => (verdict = false → after = slot) ∧ kept_when_false after log

/-- The `int` capturer over the matcher `int eq 42`, as `mock_int_capturer_create` builds it. -/
def capturer_int_42 : mock_param_capturer :=
  ⟨some ⟨DEFINE_MATCH_FUNC abi_arm64 .int .eq 42⟩, mock_capture_int abi_arm64, 0⟩

/-- The test run over `mem_ints` with its arena used up. -/
def test_ints_full : kunit := ⟨mem_ints, 64⟩

/-- The memory `mem_ints` after `kunit_int_return(test, -7)`: the `int` -7 at address 24. -/
def mem_ints_ret : List Byte :=
  List.take 24 mem_ints ++ [0xf9, 0xff, 0xff, 0xff] ++ List.drop 28 mem_ints

/-- A delegate for `invoke`: it returns the parameter array address advanced by the length and
by the pointer to the test, and bumps the arena frontier by one. -/
def delegate_example (ptest : Nat) (state : kunit) (params : Nat) (len : Int) :
    Option (Nat × kunit) :=
  some (params + len.toNat + ptest, { state with brk := state.brk + 1 })

/-- The bytes of the string literal `"va_format"`. -/
def str_va_format_bytes : List Byte := [118, 97, 95, 102, 111, 114, 109, 97, 116]

/-- A memory holding a `struct va_format` at address 32: the pointer `fmt` (to the string
`"%d"` at 48) at offset 0 and the pointer `va` at offset 8.  Address 8 holds a pointer to the
structure, address 16 the string `"va_format"`, address 52 the string `"%d"`; the arena starts
at 64. -/
def mem_va : List Byte :=
  [0, 0, 0, 0, 0, 0, 0, 0,
   32, 0, 0, 0, 0, 0, 0, 0,
   118, 97, 95, 102, 111, 114, 109, 97,
   116, 0, 0, 0, 0, 0, 0, 0,
   48, 0, 0, 0, 0, 0, 0, 0,
   56, 0, 0, 0, 0, 0, 0, 0,
   37, 100, 0, 0, 37, 100, 0, 0,
   0, 0, 0, 0, 0, 0, 0, 0] ++ List.replicate 192 0

/-- The test run over `mem_va`. -/
def test_va : kunit := ⟨mem_va, 64⟩

/-- A matcher whose `match` faults whenever it is called. -/
def faulting_matcher : mock_param_matcher := ⟨fun _ _ => none⟩

/-- An example child formatter: it prints the `int` it is given the address of with `%d`. -/
def int_formatter_example (abi : Abi) : mock_param_formatter :=
  ⟨0, fun stream pparam =>
    match CONVERT_TO_ACTUAL_TYPE abi .int stream.test.mem pparam with
    | none => none
    | some value => kunit_stream_add abi stream "%d" [value]⟩

/-! ## Theorems -/

set_option maxRecDepth 8000

theorem decimal_eq_toString (v : Int) : decimal v = toString v := by
  cases v with
  | ofNat n =>
    simp [decimal]
    rfl
  | negSucc n =>
    simp [decimal, Int.negSucc_lt_zero]
    rfl

theorem wrap_unsigned_id (bits : Nat) (v : Int) (h0 : 0 ≤ v) (h1 : v < 2 ^ bits) :
    wrap bits false v = v := by
  simp [wrap, Int.emod_eq_of_lt h0 h1]

theorem two_pow_split (bits : Nat) (hb : 0 < bits) :
    (2 : Int) ^ bits = 2 * 2 ^ (bits - 1) := by
  obtain ⟨k, rfl⟩ : ∃ k, bits = k + 1 := ⟨bits - 1, by omega⟩
  simp [pow_succ]; ring

theorem wrap_signed_id (bits : Nat) (hb : 0 < bits) (v : Int) (h0 : -(2 ^ (bits - 1)) ≤ v)
    (h1 : v < 2 ^ (bits - 1)) : wrap bits true v = v := by
  have hp := two_pow_split bits hb
  simp only [wrap, if_true]
  rw [Int.emod_eq_of_lt (by omega) (by omega)]
  omega

theorem wrap_bounds (bits : Nat) (hb : 0 < bits) (sgn : Bool) (x : Int) :
    (if sgn then -(2 ^ (bits - 1)) else 0) ≤ wrap bits sgn x ∧
    wrap bits sgn x ≤ (if sgn then 2 ^ (bits - 1) - 1 else 2 ^ bits - 1 : Int) := by
  have hp := two_pow_split bits hb
  have hpos : (0 : Int) < 2 ^ bits := by positivity
  have h1 := Int.emod_nonneg (x + 2 ^ (bits - 1)) (ne_of_gt hpos)
  have h2 := Int.emod_lt_of_pos (x + 2 ^ (bits - 1)) hpos
  have h3 := Int.emod_nonneg x (ne_of_gt hpos)
  have h4 := Int.emod_lt_of_pos x hpos
  cases sgn <;> simp [wrap] <;> omega

theorem bits_pos (abi : Abi) (T : type_name) : 0 < T.bits abi := by
  cases T <;> simp [type_name.bits, Abi.long_bits] <;> split <;> omega

theorem wrap_has_value (abi : Abi) (T : type_name) (x : Int) :
    T.has_value abi (wrap (T.bits abi) (T.is_signed abi) x) := by
  have h := wrap_bounds (T.bits abi) (bits_pos abi T) (T.is_signed abi) x
  unfold type_name.has_value type_name.min type_name.max
  cases hs : T.is_signed abi <;> simp [hs] at h ⊢ <;> exact h

theorem load_val_has_value (abi : Abi) (T : type_name) (mem : List Byte) (p : Nat) (v : Int)
    (h : load_val abi T mem p = some v) : T.has_value abi v := by
  unfold load_val at h
  cases hb : load_bytes mem p (T.bits abi / 8) with
  | none => simp [hb] at h
  | some bs =>
    simp [hb] at h
    rw [← h]
    exact wrap_has_value abi T _

/-- Integer promotion keeps the value of every operand. -/
theorem promote_id (abi : Abi) (T : type_name) (v : Int) (h : T.has_value abi v) :
    promote abi T v = v := by
  unfold promote
  split
  · rename_i hlt
    apply wrap_signed_id 32 (by omega)
    · revert h hlt
      cases T <;> cases hc : abi.char_signed <;> cases hl : abi.lp64 <;>
        simp [type_name.has_value, type_name.min, type_name.max, type_name.bits,
          type_name.is_signed, Abi.long_bits, hc, hl] <;> omega
    · revert h hlt
      cases T <;> cases hc : abi.char_signed <;> cases hl : abi.lp64 <;>
        simp [type_name.has_value, type_name.min, type_name.max, type_name.bits,
          type_name.is_signed, Abi.long_bits, hc, hl] <;> omega
  · rfl

/-- The comparison of the source, made after promotion, is the comparison of the values. -/
theorem c_compare_eq (abi : Abi) (T : type_name) (op : rel_op) (a e : Int)
    (ha : T.has_value abi a) (he : T.has_value abi e) :
    c_compare abi T op a e = op.eval a e := by
  simp [c_compare, promote_id abi T a ha, promote_id abi T e he]

theorem vsnprintf_cmp_plain (abi : Abi) (mem : List Byte) (T : type_name) (op : rel_op)
    (a b : Int) :
    vsnprintf abi mem (CMP_FORMAT T "" op) [a, b] =
      some (String.mk (conv_text abi T a ++ ((' ' :: op.token.data) ++
        (' ' :: (conv_text abi T b ++ []))))) := by
  cases T <;> cases op <;> rfl

theorem vsnprintf_cmp_not (abi : Abi) (mem : List Byte) (T : type_name) (op : rel_op)
    (a b : Int) :
    vsnprintf abi mem (CMP_FORMAT T " not" op) [a, b] =
      some (String.mk (conv_text abi T a ++ ((" not ".data ++ op.token.data) ++
        (' ' :: (conv_text abi T b ++ []))))) := by
  cases T <;> cases op <;> rfl

/-- What `kunit_stream_add` appends for a format built by `CMP_FORMAT`. -/
theorem kunit_stream_add_cmp (abi : Abi) (stream : kunit_stream) (T : type_name) (op : rel_op)
    (neg : Bool) (a b : Int) :
    kunit_stream_add abi stream (CMP_FORMAT T (if neg then " not" else "") op) [a, b] =
      some { stream with text := stream.text ++ (String.mk (conv_text abi T a) ++
        (if neg then " not " else " ") ++ op.token ++ " " ++ String.mk (conv_text abi T b)) } := by
  cases neg
  · simp only [kunit_stream_add, Bool.false_eq_true, if_false, vsnprintf_cmp_plain, Option.map_some']
    congr 2
    apply String.ext
    simp [String.data_append]
  · simp only [kunit_stream_add, if_true, vsnprintf_cmp_not, Option.map_some']
    congr 2
    apply String.ext
    simp [String.data_append]

/-- The match function of a relational matcher: verdict and trace. -/
theorem match_func_eq (abi : Abi) (T : type_name) (op : rel_op) (expected : Int)
    (hexp : T.has_value abi expected) (stream : kunit_stream) (pactual : Nat) (actual : Int)
    (hact : load_val abi T stream.test.mem pactual = some actual) :
    DEFINE_MATCH_FUNC abi T op expected stream pactual =
      some (op.eval actual expected,
        { stream with text := stream.text ++ (String.mk (conv_text abi T actual) ++
          (if op.eval actual expected then " " else " not ") ++ op.token ++ " " ++
          String.mk (conv_text abi T expected)) }) := by
  have hav := load_val_has_value abi T _ _ _ hact
  unfold DEFINE_MATCH_FUNC
  simp only [hact, c_compare_eq abi T op _ _ hav hexp, promote_id abi T _ hav,
    promote_id abi T _ hexp]
  cases hv : op.eval actual expected
  · have h := kunit_stream_add_cmp abi stream T op true actual expected
    simp only [if_true] at h
    simp [h]
  · have h := kunit_stream_add_cmp abi stream T op false actual expected
    simp only [Bool.false_eq_true, if_false] at h
    simp [h]

/-- A factory that returns a matcher returns the one whose operation is the match function
applied to `expected`. -/
theorem factory_some (abi : Abi) (T : type_name) (op : rel_op) (test test1 : kunit)
    (expected : Int) (m : mock_param_matcher)
    (h : DEFINE_MATCH_FACTORY abi T op test expected = (some m, test1)) :
    m = ⟨DEFINE_MATCH_FUNC abi T op expected⟩ := by
  unfold DEFINE_MATCH_FACTORY at h
  split at h
  split at h
  · simp at h
  · simp at h
    exact h.1.symm

/-- C1: for every primitive type `T`, every operator `op` and all values `expected` and
`actual` of type `T`, the matcher built by `kunit_<T>_<op>(test, expected)` returns from `match`
the truth value of `actual op expected` taken on the values of the type, in its own width and
signedness. -/
theorem relational_matcher_verdict (abi : Abi) (T : type_name) (op : rel_op)
    (test test1 : kunit) (expected : Int) (m : mock_param_matcher)
    (hbuild : DEFINE_MATCH_FACTORY abi T op test expected = (some m, test1))
    (hexp : T.has_value abi expected)
    (stream : kunit_stream) (pactual : Nat) (actual : Int)
    (hact : load_val abi T stream.test.mem pactual = some actual) :
    T.has_value abi actual ∧
      ∃ s, m.match_ stream pactual = some (op.eval actual expected, s) := by
  refine ⟨load_val_has_value abi T _ _ _ hact, ?_⟩
  rw [factory_some abi T op test test1 expected m hbuild]
  exact ⟨_, match_func_eq abi T op expected hexp stream pactual actual hact⟩

/-- Witness of C1: the `signed char` matcher `<` with expected 0 on the byte `0xff`, which is
-1 in that type, answers true. -/
theorem relational_matcher_verdict_witness :
    load_val abi_arm64 .schar mem_ints 9 = some (-1) ∧ rel_op.lt.eval (-1) 0 = true ∧
      ∃ s, (mock_param_matcher.mk (DEFINE_MATCH_FUNC abi_arm64 .schar .lt 0)).match_
        ⟨test_ints, ""⟩ 9 = some (rel_op.lt.eval (-1) 0, s) :=
  ⟨by decide, by decide,
    (relational_matcher_verdict abi_arm64 .schar .lt test_ints ⟨mem_ints, 32⟩ 0
      ⟨DEFINE_MATCH_FUNC abi_arm64 .schar .lt 0⟩ rfl (by decide) ⟨test_ints, ""⟩ 9 (-1)
      (by decide)).2⟩

theorem wrap_of_has_value (abi : Abi) (T : type_name) (v : Int) (h : T.has_value abi v) :
    wrap (T.bits abi) (T.is_signed abi) v = v := by
  unfold type_name.has_value type_name.min type_name.max at h
  cases hs : T.is_signed abi
  · simp [hs] at h
    exact wrap_unsigned_id _ v h.1 (by omega)
  · simp [hs] at h
    exact wrap_signed_id _ (bits_pos abi T) v h.1 (by omega)

theorem fmt_number_plain (q : fmt_qual) (v : Int) :
    String.mk (fmt_number 10 ⟨false, 0, q⟩ v) = toString v := by
  rw [← decimal_eq_toString]
  simp [fmt_number, pad_left, decimal]

/-- An integer conversion of the table prints the decimal text of every value of its type. -/
theorem conv_text_integer (abi : Abi) (T : type_name) (v : Int)
    (hint : T.is_integer = true) (h : T.has_value abi v) :
    String.mk (conv_text abi T v) = toString v := by
  by_cases h8 : T = .u8
  · subst h8
    simp [type_name.has_value, type_name.min, type_name.max, type_name.bits,
      type_name.is_signed] at h
    simp only [conv_text]
    rw [wrap_unsigned_id 16 v (by omega) (by omega)]
    exact fmt_number_plain _ v
  · have hw := wrap_of_has_value abi T v h
    cases T <;> simp [type_name.is_integer] at hint h8 <;>
      simp only [conv_text] <;> simp only [type_name.bits, type_name.is_signed] at hw <;>
      rw [hw] <;> exact fmt_number_plain _ v

/-- C2: for every integer-typed relational matcher and all values `actual` and `expected`,
`match` appends exactly `<actual> <op> <expected>` when the relation holds and
`<actual> not <op> <expected>` when it does not, both values in decimal; the `int` equality
matcher with expected 42 gives `42 == 42` and true on 42, `7 not == 42` and false on 7. -/
theorem integer_matcher_trace (abi : Abi) (T : type_name) (op : rel_op)
    (test test1 : kunit) (expected : Int) (m : mock_param_matcher)
    (hbuild : DEFINE_MATCH_FACTORY abi T op test expected = (some m, test1))
    (hint : T.is_integer = true) (hexp : T.has_value abi expected)
    (stream : kunit_stream) (pactual : Nat) (actual : Int)
    (hact : load_val abi T stream.test.mem pactual = some actual) :
    m.match_ stream pactual =
        some (op.eval actual expected,
          { stream with text := stream.text ++ (toString actual ++
            (if op.eval actual expected then " " else " not ") ++ op.token ++ " " ++
            toString expected) }) ∧
      (T = .int → op = .eq → expected = 42 → actual = 42 →
        m.match_ stream pactual =
          some (true, { stream with text := stream.text ++ "42 == 42" })) ∧
      (T = .int → op = .eq → expected = 42 → actual = 7 →
        m.match_ stream pactual =
          some (false, { stream with text := stream.text ++ "7 not == 42" })) := by
  have hav := load_val_has_value abi T _ _ _ hact
  have hmain : m.match_ stream pactual =
        some (op.eval actual expected,
          { stream with text := stream.text ++ (toString actual ++
            (if op.eval actual expected then " " else " not ") ++ op.token ++ " " ++
            toString expected) }) := by
    rw [factory_some abi T op test test1 expected m hbuild]
    show DEFINE_MATCH_FUNC abi T op expected stream pactual = _
    rw [match_func_eq abi T op expected hexp stream pactual actual hact,
      conv_text_integer abi T actual hint hav, conv_text_integer abi T expected hint hexp]
  refine ⟨hmain, ?_, ?_⟩
  · rintro rfl rfl rfl rfl
    rw [hmain]
    rfl
  · rintro rfl rfl rfl rfl
    rw [hmain]
    rfl

/-- Witness of C2: the `int` equality matcher with expected 42 run on the stored `int` 7. -/
theorem integer_matcher_trace_witness :
    (mock_param_matcher.mk (DEFINE_MATCH_FUNC abi_arm64 .int .eq 42)).match_
      ⟨test_ints, ""⟩ 5 = some (false, ⟨test_ints, "7 not == 42"⟩) :=
  ((integer_matcher_trace abi_arm64 .int .eq test_ints ⟨mem_ints, 32⟩ 42
    ⟨DEFINE_MATCH_FUNC abi_arm64 .int .eq 42⟩ rfl rfl (by decide) ⟨test_ints, ""⟩ 5 7
    (by decide)).2.2 rfl rfl rfl rfl)


/-- The character instantiations print their operands with `%c`, as characters: the
`unsigned char` equality matcher on the byte 42 with expected 42 writes `* == *`. -/
theorem char_matcher_prints_character :
    DEFINE_MATCH_FUNC abi_arm64 .uchar .eq 42 ⟨test_ints, ""⟩ 1 =
      some (true, ⟨test_ints, "* == *"⟩) := by
  decide

theorem load_bytes_some (mem : List Byte) (p n : Nat) (bs : List Byte)
    (h : load_bytes mem p n = some bs) :
    p ≠ 0 ∧ p + n ≤ mem.length ∧ bs = (mem.drop p).take n := by
  unfold load_bytes at h
  split at h
  · simp at h
  · rename_i hc
    simp at h
    refine ⟨by omega, by omega, h.symm⟩

theorem load_bytes_length (mem : List Byte) (p n : Nat) (bs : List Byte)
    (h : load_bytes mem p n = some bs) : bs.length = n := by
  obtain ⟨_, h2, rfl⟩ := load_bytes_some mem p n bs h
  simp; omega

theorem load_bytes_of_valid (mem : List Byte) (p n : Nat) (h0 : p ≠ 0)
    (h1 : p + n ≤ mem.length) : load_bytes mem p n = some ((mem.drop p).take n) := by
  unfold load_bytes
  rw [if_neg (by omega)]

/-- Reading `n + 1` bytes is reading the first and then the other `n`. -/
theorem load_bytes_succ (mem : List Byte) (p n : Nat) (bs : List Byte)
    (h : load_bytes mem p (n + 1) = some bs) :
    ∃ x rest, bs = x :: rest ∧ load_bytes mem p 1 = some [x] ∧
      load_bytes mem (p + 1) n = some rest := by
  obtain ⟨h0, h1, rfl⟩ := load_bytes_some mem p (n + 1) bs h
  have hp : p < mem.length := by omega
  refine ⟨mem[p], (mem.drop (p + 1)).take n, ?_, ?_, ?_⟩
  · rw [List.drop_eq_getElem_cons hp, List.take_succ_cons]
  · rw [load_bytes_of_valid mem p 1 h0 (by omega), List.drop_eq_getElem_cons hp]
    rfl
  · exact load_bytes_of_valid mem (p + 1) n (by omega) (by omega)

theorem load_u8_of_bytes (mem : List Byte) (p : Nat) (x : Byte)
    (h : load_bytes mem p 1 = some [x]) : load_u8 mem p = some (x.val : Int) := by
  simp [load_u8, h, le_decode]

/-- `memcmp` over two readable buffers returns, and returns zero exactly when the buffers hold
the same bytes. -/
theorem memcmp_zero_iff (mem : List Byte) (n : Nat) :
    ∀ (cs ct : Nat) (A B : List Byte), load_bytes mem cs n = some A →
      load_bytes mem ct n = some B →
      ∃ r, memcmp mem cs ct n = some r ∧ (r = 0 ↔ A = B) := by
  induction n with
  | zero =>
    intro cs ct A B hA hB
    have h1 := load_bytes_length mem cs 0 A hA
    have h2 := load_bytes_length mem ct 0 B hB
    simp at h1 h2
    simp [memcmp, h1, h2]
  | succ n ih =>
    intro cs ct A B hA hB
    obtain ⟨x, A1, rfl, hx, hA1⟩ := load_bytes_succ mem cs n A hA
    obtain ⟨y, B1, rfl, hy, hB1⟩ := load_bytes_succ mem ct n B hB
    obtain ⟨r, hr, hiff⟩ := ih (cs + 1) (ct + 1) A1 B1 hA1 hB1
    unfold memcmp
    simp only [load_u8_of_bytes mem cs x hx, load_u8_of_bytes mem ct y hy]
    by_cases hxy : x = y
    · subst hxy
      simp [hr, hiff]
    · have hne : (x.val : Int) - (y.val : Int) ≠ 0 := by
        intro h
        apply hxy
        apply Fin.ext
        omega
      simp [hne, hxy]


theorem long_bits_cases (abi : Abi) : abi.long_bits = 64 ∨ abi.long_bits = 32 := by
  unfold Abi.long_bits
  cases abi.lp64 <;> simp

theorem wrap_s32 (v : Int) : wrap 32 true v = (v + 2147483648) % 4294967296 - 2147483648 := by
  unfold wrap
  norm_num

theorem wrap_u (abi : Abi) (v : Int) :
    wrap abi.long_bits false v = v % 2 ^ abi.long_bits := by
  unfold wrap
  simp

/-- After as many iterations as the length, the loop condition fails. -/
theorem size_t_of_int_exit (abi : Abi) (size : Nat) (hsz : size < 2 ^ 32) :
    ¬ (wrap abi.long_bits false (wrap 32 true size)).toNat < size := by
  rw [wrap_u, wrap_s32]
  rcases long_bits_cases abi with h | h <;> rw [h] <;> norm_num at hsz ⊢ <;> omega

/-- An iteration that runs is not the one with the counter at -1. -/
theorem size_t_of_int_next (abi : Abi) (size bound k : Nat) (hk : k < 2 ^ 32)
    (hb : bound ≤ 2 ^ abi.long_bits) (hs : size < bound)
    (hc : (wrap abi.long_bits false (wrap 32 true k)).toNat < size) : k + 1 < 2 ^ 32 := by
  rw [wrap_u, wrap_s32] at hc
  rcases long_bits_cases abi with h | h <;> rw [h] at hb hc <;> norm_num at hb hk hc ⊢ <;> omega

theorem wrap_s32_succ (k : Nat) :
    wrap 32 true (wrap 32 true k + 1) = wrap 32 true ((k + 1 : Nat) : Int) := by
  rw [wrap_s32, wrap_s32, wrap_s32]
  push_cast
  omega

theorem stream_add_02x (abi : Abi) (s : kunit_stream) (a : Int) :
    kunit_stream_add abi s "%02x, " [a] =
      some { s with text := s.text ++
        (String.mk (fmt_number 16 ⟨true, 2, .none⟩ (wrap 32 false a)) ++ ", ") } := by
  have h : vsnprintf abi s.test.mem "%02x, " [a] =
      some (String.mk (fmt_number 16 ⟨true, 2, .none⟩ (wrap 32 false a) ++ [ ',', ' ' ])) := rfl
  simp only [kunit_stream_add, h, Option.map_some']
  rfl

/-- The element the dump loop reads lies inside the buffer, at the index the counter
converts to. -/
theorem dump_addr (abi : Abi) (mem : List Byte) (buf size : Nat) (i : Int)
    (hfit : mem.length ≤ 2 ^ abi.long_bits) (h1 : buf + size ≤ mem.length)
    (hc : (wrap abi.long_bits false i).toNat < size) :
    ptr_add abi buf i = buf + (wrap abi.long_bits false i).toNat := by
  unfold ptr_add
  rw [wrap_u] at hc ⊢
  rcases long_bits_cases abi with hb | hb <;> rw [hb] at hfit hc ⊢ <;>
    norm_num at hfit hc ⊢ <;> omega

/-- The plain `char` the dump loop reads. -/
theorem dump_load (abi : Abi) (mem : List Byte) (buf size : Nat) (i : Int)
    (hfit : mem.length ≤ 2 ^ abi.long_bits) (h0 : buf ≠ 0) (h1 : buf + size ≤ mem.length)
    (hc : (wrap abi.long_bits false i).toNat < size) :
    load_val abi .char mem (ptr_add abi buf i) =
      some (wrap 8 abi.char_signed (le_decode
        ((mem.drop (buf + (wrap abi.long_bits false i).toNat)).take 1))) := by
  rw [dump_addr abi mem buf size i hfit h1 hc]
  unfold load_val
  rw [show type_name.bits abi .char / 8 = 1 by simp [type_name.bits],
    load_bytes_of_valid mem _ 1 (by omega) (by omega)]
  simp [type_name.bits, type_name.is_signed]

/-- The dump loop over a readable buffer returns, whatever the length, and leaves the test
untouched. -/
theorem memeq_dump_returns (abi : Abi) (mem : List Byte) (buf size : Nat)
    (hfit : mem.length ≤ 2 ^ abi.long_bits) (h0 : buf ≠ 0) (h1 : buf + size ≤ mem.length) :
    ∀ (fuel k : Nat) (stream : kunit_stream), stream.test.mem = mem → k < 2 ^ 32 →
      k + fuel = size →
      ∃ s, memeq_dump abi buf size fuel (wrap 32 true k) stream = some s ∧
        s.test = stream.test := by
  intro fuel
  induction fuel with
  | zero =>
    intro k stream _ hk hsum
    refine ⟨stream, ?_, rfl⟩
    have hks : k = size := by omega
    subst hks
    rw [memeq_dump]
    rw [if_neg (size_t_of_int_exit abi k hk)]
  | succ fuel ih =>
    intro k stream hm hk hsum
    rw [memeq_dump]
    by_cases hc : (wrap abi.long_bits false (wrap 32 true k)).toNat < size
    · rw [if_pos hc, hm, dump_load abi mem buf size _ hfit h0 h1 hc]
      simp only [stream_add_02x]
      have hk1 : k + 1 < 2 ^ 32 :=
        size_t_of_int_next abi size mem.length k hk hfit (by omega) hc
      rw [wrap_s32_succ]
      exact ih (k + 1) _ hm hk1 (by omega)
    · rw [if_neg hc]
      exact ⟨stream, rfl, rfl⟩

theorem stream_add_lit_eq (abi : Abi) (s : kunit_stream) :
    kunit_stream_add abi s "== " [] = some { s with text := s.text ++ "== " } := rfl

theorem stream_add_lit_ne (abi : Abi) (s : kunit_stream) :
    kunit_stream_add abi s "!= " [] = some { s with text := s.text ++ "!= " } := rfl

theorem kunit_memeq_some (abi : Abi) (test test1 : kunit) (buf size : Nat)
    (m : mock_param_matcher) (h : kunit_memeq abi test buf size = (some m, test1)) :
    m = ⟨match_memeq abi buf size⟩ := by
  unfold kunit_memeq at h
  split at h
  split at h
  · simp at h
  · simp at h
    exact h.1.symm

/-- Two byte lists of the same length are equal exactly when they agree at every position. -/
theorem bytes_eq_iff_positions (n : Nat) (A B : List Byte) (hA : A.length = n)
    (hB : B.length = n) : A = B ↔ ∀ i, i < n → A[i]? = B[i]? := by
  constructor
  · rintro rfl i _
    rfl
  · intro h
    apply List.ext_getElem?
    intro i
    by_cases hi : i < n
    · exact h i hi
    · rw [List.getElem?_eq_none (by omega), List.getElem?_eq_none (by omega)]

/-- C3: for every expected buffer `A` and actual buffer `B` of the length `n` given to
`kunit_memeq`, `match` of the memeq matcher returns, and returns true if and only if `A` and
`B` agree at every one of the `n` byte positions. -/
theorem memeq_matcher_verdict (abi : Abi) (test test1 : kunit) (buf n : Nat)
    (m : mock_param_matcher) (hbuild : kunit_memeq abi test buf n = (some m, test1))
    (stream : kunit_stream) (pactual actual : Nat) (A B : List Byte)
    (hfit : stream.test.mem.length ≤ 2 ^ abi.long_bits)
    (hptr : CONVERT_TO_ACTUAL_TYPE abi .ptr stream.test.mem pactual = some (actual : Int))
    (hA : load_bytes stream.test.mem buf n = some A)
    (hB : load_bytes stream.test.mem actual n = some B) :
    ∃ v s, m.match_ stream pactual = some (v, s) ∧
      (v = true ↔ ∀ i, i < n → A[i]? = B[i]?) := by
  rw [kunit_memeq_some abi test test1 buf n m hbuild]
  obtain ⟨r, hr, hiff⟩ := memcmp_zero_iff stream.test.mem n actual buf B A hB hA
  obtain ⟨hB0, hB1, _⟩ := load_bytes_some _ _ _ _ hB
  obtain ⟨hA0, hA1, _⟩ := load_bytes_some _ _ _ _ hA
  obtain ⟨s1, hs1, ht1⟩ := memeq_dump_returns abi stream.test.mem actual n hfit hB0 hB1 n 0
    stream rfl (by norm_num) (by omega)
  have hpos : ∀ s2 : kunit_stream, s2.test = stream.test →
      ∃ s3, memeq_dump abi buf n n 0 s2 = some s3 := by
    intro s2 h2
    obtain ⟨s3, hs3, _⟩ := memeq_dump_returns abi stream.test.mem buf n hfit hA0 hA1 n 0
      s2 (by rw [h2]) (by norm_num) (by omega)
    exact ⟨s3, hs3⟩
  have hw0 : wrap 32 true ((0 : Nat) : Int) = 0 := by decide
  rw [hw0] at hs1
  have hlen := bytes_eq_iff_positions n A B (load_bytes_length _ _ _ _ hA)
    (load_bytes_length _ _ _ _ hB)
  by_cases hz : r = 0
  · obtain ⟨s3, hs3⟩ := hpos { s1 with text := s1.text ++ "== " } ht1
    refine ⟨true, s3, ?_, ?_⟩
    · show match_memeq abi buf n stream pactual = _
      simp [match_memeq, hptr, hr, hz, hs1, stream_add_lit_eq, hs3]
    · simp only [true_iff]
      rw [← hlen]
      exact (hiff.mp hz).symm
  · obtain ⟨s3, hs3⟩ := hpos { s1 with text := s1.text ++ "!= " } ht1
    refine ⟨false, s3, ?_, ?_⟩
    · show match_memeq abi buf n stream pactual = _
      simp [match_memeq, hptr, hr, hz, hs1, stream_add_lit_ne, hs3]
    · simp only [Bool.false_eq_true, false_iff]
      rw [← hlen]
      intro hAB
      exact hz (hiff.mpr hAB.symm)

/-- Witness of C3 on a concrete memory: the buffers `01 02` and `01 03` differ at position 1. -/
theorem memeq_matcher_verdict_witness :
    ∃ v s, (mock_param_matcher.mk (match_memeq abi_arm64 32 2)).match_ ⟨test_bufs, ""⟩ 8 =
        some (v, s) ∧
      (v = true ↔ ∀ i, i < 2 → ([0x01, 0x02] : List Byte)[i]? = ([0x01, 0x03] : List Byte)[i]?) :=
  memeq_matcher_verdict abi_arm64 test_bufs
    (kunit_memeq abi_arm64 test_bufs 32 2).2 32 2 ⟨match_memeq abi_arm64 32 2⟩ rfl
    ⟨test_bufs, ""⟩ 8 24 [0x01, 0x02] [0x01, 0x03] (by decide) (by decide) (by decide)
    (by decide)

theorem toDigits16_small (n : Nat) (h : n < 16) : Nat.toDigits 16 n = [Nat.digitChar n] := by
  unfold Nat.toDigits
  rw [Nat.toDigitsCore]
  simp [Nat.div_eq_of_lt h, Nat.mod_eq_of_lt h]

theorem toDigits16_two (n : Nat) (h1 : 16 ≤ n) (h2 : n < 256) :
    Nat.toDigits 16 n = [Nat.digitChar (n / 16), Nat.digitChar (n % 16)] := by
  unfold Nat.toDigits
  rw [Nat.toDigitsCore]
  have hq : n / 16 ≠ 0 := by omega
  simp only [hq, if_false]
  obtain ⟨m, rfl⟩ : ∃ m, n = m + 1 := ⟨n - 1, by omega⟩
  rw [Nat.toDigitsCore]
  have hq2 : (m + 1) / 16 / 16 = 0 := by omega
  have hq3 : (m + 1) / 16 % 16 = (m + 1) / 16 := by omega
  simp [hq2, hq3]

/-- The conversion `%02x` prints a value below 256 as exactly two hexadecimal digits. -/
theorem fmt_02x_byte (b : Byte) :
    String.mk (fmt_number 16 ⟨true, 2, .none⟩ ((b.val : Nat) : Int)) = hex2 b := by
  have hb := b.isLt
  unfold fmt_number hex2
  have hneg : ¬ ((b.val : Nat) : Int) < 0 := by omega
  simp only [hneg, if_false, Int.natAbs_ofNat, if_true]
  by_cases h : b.val < 16
  · rw [toDigits16_small _ h]
    have h0 : b.val / 16 = 0 := by omega
    have h1 : b.val % 16 = b.val := by omega
    simp [h0, h1]
    rfl
  · rw [toDigits16_two _ (by omega) hb]
    simp

theorem wrap_char_nonneg (abi : Abi) (x : Int) (h0 : 0 ≤ x) (h1 : x < 256)
    (h : abi.char_signed = true → x < 128) : wrap 8 abi.char_signed x = x := by
  cases hs : abi.char_signed
  · exact wrap_unsigned_id 8 x h0 (by norm_num; omega)
  · have := h hs
    exact wrap_signed_id 8 (by omega) x (by norm_num; omega) (by norm_num; omega)

theorem promote_char_nonneg (abi : Abi) (x : Int) (h0 : 0 ≤ x) (h1 : x < 256) :
    promote abi .char x = x := by
  unfold promote
  rw [if_pos (by simp [type_name.bits])]
  exact wrap_signed_id 32 (by omega) x (by norm_num; omega) (by norm_num; omega)

/-- A byte whose plain-`char` value is not negative reaches `%02x` as itself. -/
theorem char_arg_nonneg (abi : Abi) (x : Int) (h0 : 0 ≤ x) (h1 : x < 256)
    (h : abi.char_signed = true → x < 128) :
    wrap 32 false (promote abi .char (wrap 8 abi.char_signed x)) = x := by
  rw [wrap_char_nonneg abi x h0 h1 h, promote_char_nonneg abi x h0 h1]
  exact wrap_unsigned_id 32 x h0 (by norm_num; omega)

theorem size_t_of_nat (abi : Abi) (k : Nat) (hk : k < 2 ^ 31) :
    (wrap abi.long_bits false (k : Int)).toNat = k := by
  rw [wrap_u]
  rcases long_bits_cases abi with h | h <;> rw [h] <;> norm_num at hk ⊢ <;> omega

theorem wrap_s32_nat_succ (k : Nat) (hk : k + 1 < 2 ^ 31) :
    wrap 32 true ((k : Int) + 1) = ((k + 1 : Nat) : Int) := by
  rw [wrap_s32]
  norm_num at hk
  push_cast
  omega

theorem string_append_empty (s : String) : s ++ "" = s := by
  apply String.ext
  simp [String.data_append]

/-- Below `2 ^ 31` bytes, over bytes whose plain-`char` value is not negative, the dump loop
appends the two-digit dump of the bytes it has yet to visit. -/
theorem memeq_dump_text (abi : Abi) (mem : List Byte) (buf size : Nat)
    (hsize : size < 2 ^ 31) (hfit : mem.length ≤ 2 ^ abi.long_bits)
    (h1 : buf + size ≤ mem.length) :
    ∀ (fuel k : Nat) (stream : kunit_stream) (post : List Byte), stream.test.mem = mem →
      k + fuel = size → load_bytes mem (buf + k) fuel = some post →
      (abi.char_signed = true → ∀ b ∈ post, b.val < 128) →
      memeq_dump abi buf size fuel (k : Int) stream =
        some { stream with text := stream.text ++ hex_dump post } := by
  intro fuel
  induction fuel with
  | zero =>
    intro k stream post _ hsum hpost _
    have hl := load_bytes_length _ _ _ _ hpost
    have hnil : post = [] := List.length_eq_zero.mp hl
    subst hnil
    rw [memeq_dump, size_t_of_nat abi k (by omega), if_neg (by omega)]
    simp [hex_dump, string_append_empty]
  | succ fuel ih =>
    intro k stream post hm hsum hpost hchar
    obtain ⟨x, rest, rfl, hx, hrest⟩ := load_bytes_succ mem (buf + k) fuel post hpost
    have hk : k < 2 ^ 31 := by omega
    have hc : (wrap abi.long_bits false (k : Int)).toNat < size := by
      rw [size_t_of_nat abi k hk]; omega
    rw [memeq_dump, if_pos hc, hm]
    have hload : load_val abi .char mem (ptr_add abi buf (k : Int)) =
        some (wrap 8 abi.char_signed (le_decode [x])) := by
      rw [dump_addr abi mem buf size _ hfit h1 hc, size_t_of_nat abi k hk]
      unfold load_val
      rw [show type_name.bits abi .char / 8 = 1 by simp [type_name.bits], hx]
      simp [type_name.bits, type_name.is_signed]
    rw [hload]
    simp only [stream_add_02x]
    have hxv : (le_decode [x] : Int) = ((x.val : Nat) : Int) := by simp [le_decode]
    have hxlt := x.isLt
    rw [hxv, char_arg_nonneg abi _ (by omega) (by omega)
      (fun hs => by have := hchar hs x (List.mem_cons_self _ _); omega),
      fmt_02x_byte, wrap_s32_nat_succ k (by omega)]
    rw [ih (k + 1) ⟨stream.test, stream.text ++ (hex2 x ++ ", ")⟩ rest hm (by omega) hrest
      (fun hs b hb => hchar hs b (List.mem_cons_of_mem _ hb))]
    simp only [hex_dump, String.append_assoc]

/-- The function `match_memeq` on two readable buffers shorter than `2 ^ 31` bytes whose bytes
have a non-negative plain-`char` value: the verdict is the equality of the buffers and the
trace is the dump of the actual bytes, `== ` or `!= `, and the dump of the expected bytes. -/
theorem match_memeq_eq (abi : Abi) (buf n : Nat) (stream : kunit_stream)
    (pactual actual : Nat) (A B : List Byte)
    (hfit : stream.test.mem.length ≤ 2 ^ abi.long_bits)
    (hptr : CONVERT_TO_ACTUAL_TYPE abi .ptr stream.test.mem pactual = some (actual : Int))
    (hA : load_bytes stream.test.mem buf n = some A)
    (hB : load_bytes stream.test.mem actual n = some B)
    (hn : n < 2 ^ 31)
    (hcA : abi.char_signed = true → ∀ b ∈ A, b.val < 128)
    (hcB : abi.char_signed = true → ∀ b ∈ B, b.val < 128) :
    match_memeq abi buf n stream pactual =
      some (decide (B = A), { stream with text := stream.text ++
        (hex_dump B ++ ((if B = A then "== " else "!= ") ++ hex_dump A)) }) := by
  obtain ⟨r, hr, hiff⟩ := memcmp_zero_iff stream.test.mem n actual buf B A hB hA
  obtain ⟨_, hB1, _⟩ := load_bytes_some _ _ _ _ hB
  obtain ⟨_, hA1, _⟩ := load_bytes_some _ _ _ _ hA
  have d1 := memeq_dump_text abi stream.test.mem actual n hn hfit hB1 n 0 stream B rfl
    (by omega) hB hcB
  have d2 : ∀ s2 : kunit_stream, s2.test = stream.test →
      memeq_dump abi buf n n 0 s2 = some { s2 with text := s2.text ++ hex_dump A } := by
    intro s2 h2
    exact memeq_dump_text abi stream.test.mem buf n hn hfit hA1 n 0 s2 A (by rw [h2])
      (by omega) hA hcA
  have d1x : memeq_dump abi actual n n 0 stream =
      some { stream with text := stream.text ++ hex_dump B } := d1
  by_cases hz : r = 0
  · have hBA : B = A := hiff.mp hz
    simp [match_memeq, hptr, hr, hz, d1x, stream_add_lit_eq, d2, hBA, String.append_assoc]
  · have hBA : ¬ B = A := fun h => hz (hiff.mpr h)
    simp [match_memeq, hptr, hr, hz, d1x, stream_add_lit_ne, d2, hBA, String.append_assoc]

/-- C4, the code at a failing input: where plain `char` is signed, the byte `0x80` is printed
by `%02x` as the eight digits `ffffff80`, on both sides of the trace. -/
theorem memeq_trace_sign_extension :
    match_memeq abi_x86_64 41 1 ⟨test_bufs, ""⟩ 16 =
      some (true, ⟨test_bufs, "ffffff80, == ffffff80, "⟩) := by
  decide

/-- C5 as stated fails: on the expected bytes `01 02` and the actual bytes `01 03` no run
returns false with `01, 02, ` ahead of the marker and `01, 03, ` after it. -/
theorem memeq_example_counterexample :
    ¬ ∃ s, match_memeq abi_arm64 32 2 ⟨test_bufs, ""⟩ 8 = some (false, s) ∧
      occur_in_order ["01, 02, ", "!= ", "01, 03, "] s.text.data = true := by
  have h : match_memeq abi_arm64 32 2 ⟨test_bufs, ""⟩ 8 =
      some (false, ⟨test_bufs, "01, 03, != 01, 02, "⟩) := by decide
  rintro ⟨s, hs, ho⟩
  rw [h] at hs
  simp only [Option.some.injEq, Prod.mk.injEq, true_and] at hs
  subst hs
  revert ho
  decide

/-- C5 amended: the memeq matcher with expected bytes `01 02` and length 2, matched against
the actual bytes `01 03`, returns false and appends exactly `01, 03, != 01, 02, `: the actual
bytes first, then the marker, then the expected bytes. -/
theorem memeq_example_trace (abi : Abi) (test test1 : kunit) (buf : Nat)
    (m : mock_param_matcher) (hbuild : kunit_memeq abi test buf 2 = (some m, test1))
    (stream : kunit_stream) (pactual actual : Nat)
    (hfit : stream.test.mem.length ≤ 2 ^ abi.long_bits)
    (hptr : CONVERT_TO_ACTUAL_TYPE abi .ptr stream.test.mem pactual = some (actual : Int))
    (hA : load_bytes stream.test.mem buf 2 = some [0x01, 0x02])
    (hB : load_bytes stream.test.mem actual 2 = some [0x01, 0x03]) :
    m.match_ stream pactual =
      some (false, { stream with text := stream.text ++ "01, 03, != 01, 02, " }) := by
  rw [kunit_memeq_some abi test test1 buf 2 m hbuild]
  show match_memeq abi buf 2 stream pactual = _
  rw [match_memeq_eq abi buf 2 stream pactual actual _ _ hfit hptr hA hB (by norm_num)
    (by intro _ b hb; simp at hb; rcases hb with rfl | rfl <;> decide)
    (by intro _ b hb; simp at hb; rcases hb with rfl | rfl <;> decide)]
  rfl

/-- Witness of the amended C5 on a concrete memory. -/
theorem memeq_example_trace_witness :
    (mock_param_matcher.mk (match_memeq abi_arm64 32 2)).match_ ⟨test_bufs, ""⟩ 8 =
      some (false, ⟨test_bufs, "01, 03, != 01, 02, "⟩) :=
  memeq_example_trace abi_arm64 test_bufs
    (kunit_memeq abi_arm64 test_bufs 32 2).2 32 ⟨match_memeq abi_arm64 32 2⟩ rfl
    ⟨test_bufs, ""⟩ 8 24 (by decide) (by decide) (by decide) (by decide)


/-- What `cstr_scan` returns: the bytes before the first NUL. -/
theorem cstr_scan_some (m S : List Byte) (h : cstr_scan m = some S) :
    (∀ b ∈ S, b ≠ 0) ∧ ∃ rest, m = S ++ 0 :: rest := by
  induction m generalizing S with
  | nil => simp [cstr_scan] at h
  | cons b m ih =>
    rw [cstr_scan] at h
    by_cases hb : b = 0
    · rw [if_pos hb] at h
      simp at h
      subst h
      subst hb
      exact ⟨by simp, m, rfl⟩
    · rw [if_neg hb] at h
      cases hs : cstr_scan m with
      | none => simp [hs] at h
      | some S1 =>
        simp [hs] at h
        subst h
        obtain ⟨h1, rest, h2⟩ := ih S1 hs
        refine ⟨?_, rest, by rw [h2]; rfl⟩
        intro c hc
        rcases List.mem_cons.mp hc with rfl | hc
        · exact hb
        · exact h1 c hc

theorem load_cstr_some (mem : List Byte) (p : Nat) (S : List Byte)
    (h : load_cstr mem p = some S) :
    p ≠ 0 ∧ (∀ b ∈ S, b ≠ 0) ∧ ∃ rest, mem.drop p = S ++ 0 :: rest := by
  unfold load_cstr at h
  by_cases hp : p = 0
  · simp [hp] at h
  · rw [if_neg hp] at h
    exact ⟨hp, cstr_scan_some _ _ h⟩

/-- The bytes of a string in memory are readable as a buffer of its length. -/
theorem load_cstr_bytes (mem : List Byte) (p : Nat) (S : List Byte)
    (h : load_cstr mem p = some S) : load_bytes mem p S.length = some S := by
  obtain ⟨hp, _, rest, hd⟩ := load_cstr_some mem p S h
  have hlen : (mem.drop p).length = S.length + (rest.length + 1) := by
    rw [hd]; simp
  rw [List.length_drop] at hlen
  rw [load_bytes_of_valid mem p S.length hp (by omega), hd]
  simp

/-- `strcmp` on two strings returns, and returns zero exactly when they are the same. -/
theorem strcmp_scan_zero_iff (A : List Byte) :
    ∀ (E r1 r2 : List Byte), (∀ b ∈ A, b ≠ 0) → (∀ b ∈ E, b ≠ 0) →
      ∃ r, strcmp_scan (A ++ 0 :: r1) (E ++ 0 :: r2) = some r ∧ (r = 0 ↔ A = E) := by
  induction A with
  | nil =>
    intro E r1 r2 _ hE
    cases E with
    | nil => exact ⟨0, by simp [strcmp_scan], by simp⟩
    | cons e E1 =>
      have he : e ≠ 0 := hE e (List.mem_cons_self _ _)
      have he2 : (0 : Byte) ≠ e := fun h => he h.symm
      refine ⟨if (0 : Byte) < e then -1 else 1, by simp [strcmp_scan, he2], ?_⟩
      constructor
      · intro h; split at h <;> omega
      · intro h; simp at h
  | cons a A1 ih =>
    intro E r1 r2 hA hE
    have ha : a ≠ 0 := hA a (List.mem_cons_self _ _)
    cases E with
    | nil =>
      refine ⟨if a < (0 : Byte) then -1 else 1, by simp [strcmp_scan, ha], ?_⟩
      constructor
      · intro h; split at h <;> omega
      · intro h; simp at h
    | cons e E1 =>
      by_cases hae : a = e
      · subst hae
        obtain ⟨r, hr, hiff⟩ := ih E1 r1 r2 (fun b hb => hA b (List.mem_cons_of_mem _ hb))
          (fun b hb => hE b (List.mem_cons_of_mem _ hb))
        refine ⟨r, by simp [strcmp_scan, ha, hr], ?_⟩
        simp [hiff]
      · refine ⟨if a < e then -1 else 1, by simp [strcmp_scan, hae], ?_⟩
        constructor
        · intro h; split at h <;> omega
        · intro h; simp at h; exact absurd h.1 hae

theorem strcmp_zero_iff (mem : List Byte) (cs ct : Nat) (A E : List Byte)
    (hA : load_cstr mem cs = some A) (hE : load_cstr mem ct = some E) :
    ∃ r, strcmp mem cs ct = some r ∧ (r = 0 ↔ A = E) := by
  obtain ⟨h1, h2, r1, h3⟩ := load_cstr_some mem cs A hA
  obtain ⟨h4, h5, r2, h6⟩ := load_cstr_some mem ct E hE
  unfold strcmp
  rw [if_neg (by simp [h1, h4]), h3, h6]
  exact strcmp_scan_zero_iff A E r1 r2 h2 h5

theorem fmt_run_nil (abi : Abi) (mem : List Byte) (args : List Int) :
    fmt_run abi mem .text [] args = some [] := by
  simp [fmt_run]

theorem fmt_run_text (abi : Abi) (mem : List Byte) (c : Char) (cs : List Char)
    (args : List Int) (hc : c ≠ '%') :
    fmt_run abi mem .text (c :: cs) args =
      (fmt_run abi mem .text cs args).map ([c] ++ ·) := by
  simp [fmt_run, fmt_step, hc]

/-- The conversion `%s` prints the string its argument points to. -/
theorem fmt_run_s (abi : Abi) (mem : List Byte) (cs : List Char) (a : Int)
    (args : List Int) (S : List Byte) (h : load_cstr mem a.toNat = some S) :
    fmt_run abi mem .text ('%' :: 's' :: cs) (a :: args) =
      (fmt_run abi mem .text cs args).map ((bytes_to_string S).data ++ ·) := by
  have h1 : fmt_step abi mem .text '%' (a :: args) =
      some (.flags ⟨false, 0, .none⟩, a :: args, []) := rfl
  have h2 : fmt_step abi mem (.flags ⟨false, 0, .none⟩) 's' (a :: args) =
      (load_cstr mem a.toNat).map
        fun bs => (.text, args, pad_left 0 ' ' (bytes_to_string bs).data) := rfl
  rw [fmt_run, h1]
  simp only []
  rw [fmt_run, h2, h]
  simp only [Option.map_some', pad_left, Nat.zero_sub, List.replicate, List.nil_append]
  cases fmt_run abi mem .text cs args <;> rfl

theorem stream_add_streq (abi : Abi) (s : kunit_stream) (a e : Int) (A E : List Byte)
    (hA : load_cstr s.test.mem a.toNat = some A) (hE : load_cstr s.test.mem e.toNat = some E)
    (neg : Bool) :
    kunit_stream_add abi s (if neg then "%s != %s" else "%s == %s") [a, e] =
      some { s with text := s.text ++ (bytes_to_string A ++
        (if neg then " != " else " == ") ++ bytes_to_string E) } := by
  cases neg
  · have hd : "%s == %s".data = '%' :: 's' :: ' ' :: '=' :: '=' :: ' ' :: '%' :: 's' :: [] := rfl
    simp only [kunit_stream_add, vsnprintf, Bool.false_eq_true, if_false, hd]
    rw [fmt_run_s abi _ _ a _ A hA, fmt_run_text _ _ _ _ _ (by decide),
      fmt_run_text _ _ _ _ _ (by decide), fmt_run_text _ _ _ _ _ (by decide),
      fmt_run_text _ _ _ _ _ (by decide), fmt_run_s abi _ _ e _ E hE, fmt_run_nil]
    simp only [Option.map_some']
    congr 2
    apply String.ext
    simp [String.data_append]
  · have hd : "%s != %s".data = '%' :: 's' :: ' ' :: '!' :: '=' :: ' ' :: '%' :: 's' :: [] := rfl
    simp only [kunit_stream_add, vsnprintf, if_true, hd]
    rw [fmt_run_s abi _ _ a _ A hA, fmt_run_text _ _ _ _ _ (by decide),
      fmt_run_text _ _ _ _ _ (by decide), fmt_run_text _ _ _ _ _ (by decide),
      fmt_run_text _ _ _ _ _ (by decide), fmt_run_s abi _ _ e _ E hE, fmt_run_nil]
    simp only [Option.map_some']
    congr 2
    apply String.ext
    simp [String.data_append]

theorem kunit_streq_some (abi : Abi) (test test1 : kunit) (str : Nat)
    (m : mock_param_matcher) (h : kunit_streq abi test str = (some m, test1)) :
    m = ⟨match_streq abi str⟩ := by
  unfold kunit_streq at h
  split at h
  split at h
  · simp at h
  · simp at h
    exact h.1.symm

/-- The function `match_streq` on two strings: verdict and trace. -/
theorem match_streq_eq (abi : Abi) (expected : Nat) (stream : kunit_stream)
    (pactual actual : Nat) (a e : List Byte)
    (hptr : CONVERT_TO_ACTUAL_TYPE abi .ptr stream.test.mem pactual = some (actual : Int))
    (ha : load_cstr stream.test.mem actual = some a)
    (he : load_cstr stream.test.mem expected = some e) :
    match_streq abi expected stream pactual =
      some (decide (a = e), { stream with text := stream.text ++ (bytes_to_string a ++
        (if a = e then " == " else " != ") ++ bytes_to_string e) }) := by
  obtain ⟨r, hr, hiff⟩ := strcmp_zero_iff stream.test.mem actual expected a e ha he
  have hadd := stream_add_streq abi stream (actual : Int) (expected : Int) a e
    (by simpa using ha) (by simpa using he)
  by_cases hz : r = 0
  · have hae : a = e := hiff.mp hz
    have h := hadd false
    simp only [Bool.false_eq_true, if_false] at h
    simp [match_streq, hptr, hr, hz, h, hae]
  · have hae : ¬ a = e := fun h => hz (hiff.mpr h)
    have h := hadd true
    simp only [if_true] at h
    simp [match_streq, hptr, hr, hz, h, hae]

/-- C7: for every expected string `e` and actual string `a`, `match` of the matcher built by
`kunit_streq(test, e)` returns true if and only if `a` and `e` are the same character
sequence, and the trace is `<a> == <e>` when it returns true and `<a> != <e>` when it
returns false. -/
theorem streq_matcher (abi : Abi) (test test1 : kunit) (str : Nat) (m : mock_param_matcher)
    (hbuild : kunit_streq abi test str = (some m, test1))
    (stream : kunit_stream) (pactual actual : Nat) (a e : List Byte)
    (hptr : CONVERT_TO_ACTUAL_TYPE abi .ptr stream.test.mem pactual = some (actual : Int))
    (ha : load_cstr stream.test.mem actual = some a)
    (he : load_cstr stream.test.mem str = some e) :
    ∃ v, (v = true ↔ a = e) ∧
      m.match_ stream pactual =
        some (v, { stream with text := stream.text ++ (bytes_to_string a ++
          (if v then " == " else " != ") ++ bytes_to_string e) }) := by
  rw [kunit_streq_some abi test test1 str m hbuild]
  refine ⟨decide (a = e), by simp, ?_⟩
  show match_streq abi str stream pactual = _
  rw [match_streq_eq abi str stream pactual actual a e hptr ha he]
  by_cases h : a = e <;> simp [h]

/-- Witness of C7: the string `"hello"` against the expected `"ok"`. -/
theorem streq_matcher_witness :
    ∃ v, (v = true ↔ ([104, 101, 108, 108, 111] : List Byte) = [111, 107]) ∧
      (mock_param_matcher.mk (match_streq abi_arm64 44)).match_ ⟨test_strs, ""⟩ 8 =
        some (v, { (⟨test_strs, ""⟩ : kunit_stream) with text := "" ++
          (bytes_to_string [104, 101, 108, 108, 111] ++
          (if v then " == " else " != ") ++ bytes_to_string [111, 107]) }) :=
  streq_matcher abi_arm64 test_strs (kunit_streq abi_arm64 test_strs 44).2 44
    ⟨match_streq abi_arm64 44⟩ rfl ⟨test_strs, ""⟩ 8 32 _ _ (by decide) (by decide) (by decide)

theorem load_bytes_take (mem : List Byte) (p n k : Nat) (bs : List Byte)
    (h : load_bytes mem p n = some bs) (hk : k ≤ n) :
    load_bytes mem p k = some (bs.take k) := by
  obtain ⟨h0, h1, rfl⟩ := load_bytes_some mem p n bs h
  rw [load_bytes_of_valid mem p k h0 (by omega), List.take_take, Nat.min_eq_left hk]

/-- The loop of `strstr` over the rest `R` of the haystack returns, and returns a non-null
address exactly when the non-empty needle `N` occurs in `R`. -/
theorem strstr_loop_spec (mem : List Byte) (s2 : Nat) (N : List Byte) (hN : N ≠ [])
    (hs2 : load_bytes mem s2 N.length = some N) (R : List Byte) :
    ∀ s1, load_bytes mem s1 R.length = some R →
      ∃ p, strstr_loop mem s2 N.length R.length s1 = some p ∧
        (p ≠ 0 ↔ ∃ pre post, R = pre ++ N ++ post) := by
  have hl2 : N.length ≠ 0 := fun h => hN (List.length_eq_zero.mp h)
  induction R with
  | nil =>
    intro s1 _
    refine ⟨0, by simp [strstr_loop, hl2], ?_⟩
    simp only [ne_eq, not_true_eq_false, false_iff]
    rintro ⟨pre, post, h⟩
    have := congrArg List.length h
    simp at this
    omega
  | cons x R1 ih =>
    intro s1 hR
    obtain ⟨h0, _, _⟩ := load_bytes_some _ _ _ _ hR
    obtain ⟨y, rest, hyr, _, hrest⟩ := load_bytes_succ mem s1 R1.length (x :: R1) hR
    simp only [List.cons.injEq] at hyr
    obtain ⟨rfl, rfl⟩ := hyr
    obtain ⟨p1, hp1, hiff1⟩ := ih (s1 + 1) hrest
    simp only [List.length_cons]
    rw [strstr_loop]
    by_cases hge : R1.length + 1 ≥ N.length
    · rw [if_pos hge]
      have htake := load_bytes_take mem s1 (R1.length + 1) N.length (x :: R1) hR hge
      obtain ⟨r, hr, hiff⟩ := memcmp_zero_iff mem N.length s1 s2 _ N htake hs2
      rw [hr]
      by_cases hz : r = 0
      · refine ⟨s1, by simp [hz], ?_⟩
        simp only [ne_eq, h0, not_false_eq_true, true_iff]
        have hpre := hiff.mp hz
        refine ⟨[], (x :: R1).drop N.length, ?_⟩
        calc x :: R1 = (x :: R1).take N.length ++ (x :: R1).drop N.length :=
              (List.take_append_drop N.length _).symm
          _ = [] ++ N ++ (x :: R1).drop N.length := by rw [hpre]; rfl
      · refine ⟨p1, by simp [hz, hp1], ?_⟩
        rw [hiff1]
        constructor
        · rintro ⟨pre, post, h⟩
          exact ⟨x :: pre, post, by rw [h]; simp⟩
        · rintro ⟨pre, post, h⟩
          cases pre with
          | nil =>
            exfalso
            apply hz
            apply hiff.mpr
            rw [h]
            simp
          | cons c pre1 =>
            simp only [List.cons_append, List.cons.injEq] at h
            exact ⟨pre1, post, h.2⟩
    · rw [if_neg hge]
      refine ⟨0, rfl, ?_⟩
      simp only [ne_eq, not_true_eq_false, false_iff]
      rintro ⟨pre, post, h⟩
      have := congrArg List.length h
      simp at this
      omega

/-- `strstr` on two strings returns, and returns a non-null address exactly when the needle
occurs in the haystack. -/
theorem strstr_spec (mem : List Byte) (s1 s2 : Nat) (H N : List Byte)
    (hH : load_cstr mem s1 = some H) (hN : load_cstr mem s2 = some N) :
    ∃ p, strstr mem s1 s2 = some p ∧ (p ≠ 0 ↔ ∃ pre post, H = pre ++ N ++ post) := by
  obtain ⟨h1, _, _⟩ := load_cstr_some mem s1 H hH
  by_cases hn : N = []
  · subst hn
    refine ⟨s1, by simp [strstr, strlen, hN], ?_⟩
    simp only [ne_eq, h1, not_false_eq_true, true_iff]
    exact ⟨[], H, by simp⟩
  · have hl2 : N.length ≠ 0 := fun h => hn (List.length_eq_zero.mp h)
    obtain ⟨p, hp, hiff⟩ := strstr_loop_spec mem s2 N hn (load_cstr_bytes mem s2 N hN) H s1
      (load_cstr_bytes mem s1 H hH)
    exact ⟨p, by simp [strstr, strlen, hN, hH, hl2, hp], hiff⟩

/-- Literal text of a format string is copied to the output. -/
theorem fmt_run_lit (abi : Abi) (mem : List Byte) (lit cs : List Char) (args : List Int)
    (hlit : ∀ c ∈ lit, c ≠ '%') :
    fmt_run abi mem .text (lit ++ cs) args =
      (fmt_run abi mem .text cs args).map (lit ++ ·) := by
  induction lit with
  | nil =>
    rw [List.nil_append]
    cases fmt_run abi mem .text cs args <;> rfl
  | cons c lit ih =>
    rw [List.cons_append, fmt_run_text abi mem c _ args (hlit c (List.mem_cons_self _ _)),
      ih (fun d hd => hlit d (List.mem_cons_of_mem _ hd))]
    cases fmt_run abi mem .text cs args <;> rfl

theorem stream_add_contains (abi : Abi) (s : kunit_stream) (n h : Int) (N H : List Byte)
    (hN : load_cstr s.test.mem n.toNat = some N) (hH : load_cstr s.test.mem h.toNat = some H)
    (neg : Bool) :
    kunit_stream_add abi s (if neg then "'%s' not found in '%s'" else "'%s' found in '%s'")
        [n, h] =
      some { s with text := s.text ++ ("'" ++ bytes_to_string N ++
        (if neg then "' not found in '" else "' found in '") ++ bytes_to_string H ++ "'") } := by
  cases neg
  · have hd : "'%s' found in '%s'".data =
        "'".data ++ ('%' :: 's' :: ("' found in '".data ++ ('%' :: 's' :: ("'".data ++ [])))) := rfl
    simp only [kunit_stream_add, vsnprintf, Bool.false_eq_true, if_false, hd]
    rw [fmt_run_lit abi _ _ _ _ (by decide), fmt_run_s abi _ _ n _ N hN,
      fmt_run_lit abi _ _ _ _ (by decide), fmt_run_s abi _ _ h _ H hH,
      fmt_run_lit abi _ _ _ _ (by decide), fmt_run_nil]
    simp only [Option.map_some']
    congr 2
    apply String.ext
    simp [String.data_append]
  · have hd : "'%s' not found in '%s'".data =
        "'".data ++ ('%' :: 's' :: ("' not found in '".data ++
          ('%' :: 's' :: ("'".data ++ [])))) := rfl
    simp only [kunit_stream_add, vsnprintf, if_true, hd]
    rw [fmt_run_lit abi _ _ _ _ (by decide), fmt_run_s abi _ _ n _ N hN,
      fmt_run_lit abi _ _ _ _ (by decide), fmt_run_s abi _ _ h _ H hH,
      fmt_run_lit abi _ _ _ _ (by decide), fmt_run_nil]
    simp only [Option.map_some']
    congr 2
    apply String.ext
    simp [String.data_append]

theorem kunit_str_contains_some (abi : Abi) (test test1 : kunit) (str : Nat)
    (m : mock_param_matcher) (h : kunit_str_contains abi test str = (some m, test1)) :
    m = ⟨match_str_contains abi str⟩ := by
  unfold kunit_str_contains at h
  split at h
  split at h
  · simp at h
  · simp at h
    exact h.1.symm

/-- C6: for every needle and every haystack, `match` of the matcher built by
`kunit_str_contains(test, needle)` returns true if and only if the needle occurs as a
contiguous substring of the haystack; the empty needle matches every haystack; the trace is
`'<needle>' found in '<haystack>'` when it returns true and
`'<needle>' not found in '<haystack>'` otherwise. -/
theorem str_contains_matcher (abi : Abi) (test test1 : kunit) (str : Nat)
    (m : mock_param_matcher) (hbuild : kunit_str_contains abi test str = (some m, test1))
    (stream : kunit_stream) (phaystack haystack : Nat) (N H : List Byte)
    (hptr : CONVERT_TO_ACTUAL_TYPE abi .ptr stream.test.mem phaystack =
      some (haystack : Int))
    (hH : load_cstr stream.test.mem haystack = some H)
    (hN : load_cstr stream.test.mem str = some N) :
    ∃ v, (v = true ↔ ∃ pre post, H = pre ++ N ++ post) ∧ (N = [] → v = true) ∧
      m.match_ stream phaystack =
        some (v, { stream with text := stream.text ++ ("'" ++ bytes_to_string N ++
          (if v then "' found in '" else "' not found in '") ++ bytes_to_string H ++ "'") }) := by
  rw [kunit_str_contains_some abi test test1 str m hbuild]
  obtain ⟨p, hp, hiff⟩ := strstr_spec stream.test.mem haystack str H N hH hN
  have hadd := stream_add_contains abi stream (str : Int) (haystack : Int) N H
    (by simpa using hN) (by simpa using hH)
  refine ⟨decide (p ≠ 0), by simpa using hiff, ?_, ?_⟩
  · rintro rfl
    simp only [decide_eq_true_eq]
    exact hiff.mpr ⟨[], H, by simp⟩
  · show match_str_contains abi str stream phaystack = _
    by_cases hz : p = 0
    · have h := hadd true
      simp only [if_true] at h
      simp [match_str_contains, hptr, hp, hz, h]
    · have h := hadd false
      simp only [Bool.false_eq_true, if_false] at h
      simp [match_str_contains, hptr, hp, hz, h]

/-- Witness of C6: the needle `"ell"` in the haystack `"hello"`. -/
theorem str_contains_matcher_witness :
    ∃ v, (v = true ↔ ∃ pre post, ([104, 101, 108, 108, 111] : List Byte) =
        pre ++ [101, 108, 108] ++ post) ∧
      (([101, 108, 108] : List Byte) = [] → v = true) ∧
      (mock_param_matcher.mk (match_str_contains abi_arm64 40)).match_ ⟨test_strs, ""⟩ 8 =
        some (v, { (⟨test_strs, ""⟩ : kunit_stream) with text := "" ++
          ("'" ++ bytes_to_string [101, 108, 108] ++
          (if v then "' found in '" else "' not found in '") ++
          bytes_to_string [104, 101, 108, 108, 111] ++ "'") }) :=
  str_contains_matcher abi_arm64 test_strs (kunit_str_contains abi_arm64 test_strs 40).2 40
    ⟨match_str_contains abi_arm64 40⟩ rfl ⟨test_strs, ""⟩ 8 32 _ _ (by decide) (by decide)
    (by decide)

theorem stream_add_comma (abi : Abi) (s : kunit_stream) :
    kunit_stream_add abi s ", " [] = some { s with text := s.text ++ ", " } := rfl

theorem stream_add_close (abi : Abi) (s : kunit_stream) :
    kunit_stream_add abi s "\x7d" [] = some { s with text := s.text ++ "\x7d" } := rfl

theorem stream_add_struct_open (abi : Abi) (s : kunit_stream) (name : Int) (nm : List Byte)
    (h : load_cstr s.test.mem name.toNat = some nm) :
    kunit_stream_add abi s "struct %s \x7b" [name] =
      some { s with text := s.text ++ ("struct " ++ bytes_to_string nm ++ " \x7b") } := by
  simp only [kunit_stream_add, vsnprintf]
  rw [show ([ 's', 't', 'r', 'u', 'c', 't', ' ', '%', 's', ' ', '\x7b' ] : List Char) =
    [ 's', 't', 'r', 'u', 'c', 't', ' ' ] ++ ('%' :: 's' :: ([ ' ', '\x7b' ] ++ [])) from rfl]
  rw [fmt_run_lit abi _ _ _ _ (by decide), fmt_run_s abi _ _ name _ nm h,
    fmt_run_lit abi _ _ _ _ (by decide), fmt_run_nil]
  rfl

/-- Inside the address space, pointer arithmetic with an offset is addition. -/
theorem ptr_add_nat (abi : Abi) (p offset : Nat) (h : p + offset < 2 ^ abi.long_bits) :
    ptr_add abi p (offset : Int) = p + offset := by
  unfold ptr_add
  rcases long_bits_cases abi with hb | hb <;> rw [hb] at h ⊢ <;> norm_num at h ⊢ <;> omega

/-- The loop of `match_struct` over the fields in front of the sentinel is `run_fields`; what
follows the sentinel is not visited. -/
theorem match_struct_loop_eq (abi : Abi) (base : Nat) (sentinel_offset : Nat)
    (tail : List mock_struct_matcher_entry) :
    ∀ (fields : List (Nat × mock_param_matcher)) (acc : Bool) (stream : kunit_stream),
      (∀ f ∈ fields, base + f.1 < 2 ^ abi.long_bits) →
      match_struct_loop abi base
          (fields.map (fun f => ⟨f.1, some f.2⟩) ++ ⟨sentinel_offset, none⟩ :: tail) acc stream =
        (run_fields base fields stream).map
          fun r => (acc && r.1.all id, r.2) := by
  intro fields
  induction fields with
  | nil =>
    intro acc stream _
    simp [match_struct_loop, run_fields]
  | cons f rest ih =>
    intro acc stream hin
    obtain ⟨offset, child⟩ := f
    have hoff : base + offset < 2 ^ abi.long_bits := hin (offset, child) (List.mem_cons_self _ _)
    simp only [List.map_cons, List.cons_append]
    rw [match_struct_loop, run_fields]
    simp only [ptr_add_nat abi base offset hoff]
    cases hc : child.match_ stream (base + offset) with
    | none => rfl
    | some r =>
      obtain ⟨v, s1⟩ := r
      simp only [stream_add_comma]
      rw [ih (acc && v) _ (fun g hg => hin g (List.mem_cons_of_mem _ hg))]
      cases run_fields base rest { test := s1.test, text := s1.text ++ ", " } with
      | none => rfl
      | some r2 => simp [Bool.and_assoc]

theorem kunit_struct_cmp_some (abi : Abi) (test test1 : kunit) (struct_name : Nat)
    (entries : List mock_struct_matcher_entry) (m : mock_param_matcher)
    (h : kunit_struct_cmp abi test struct_name entries = (some m, test1)) :
    m = ⟨match_struct abi struct_name entries⟩ := by
  unfold kunit_struct_cmp at h
  split at h
  split at h
  · simp at h
  · simp at h
    exact h.1.symm

/-- The function `match_struct` over a sentinel-terminated array: the opening text, the fields
run by `run_fields`, the closing brace; the verdict is the conjunction of the verdicts. -/
theorem match_struct_eq (abi : Abi) (struct_name : Nat)
    (fields : List (Nat × mock_param_matcher)) (sentinel_offset : Nat)
    (tail : List mock_struct_matcher_entry) (stream : kunit_stream) (pactual base : Nat)
    (nm : List Byte)
    (hptr : CONVERT_TO_ACTUAL_TYPE abi .ptr stream.test.mem pactual = some (base : Int))
    (hname : load_cstr stream.test.mem struct_name = some nm)
    (hin : ∀ f ∈ fields, base + f.1 < 2 ^ abi.long_bits) :
    match_struct abi struct_name
        (fields.map (fun f => ⟨f.1, some f.2⟩) ++ ⟨sentinel_offset, none⟩ :: tail)
        stream pactual =
      (run_fields base fields
          { stream with text := stream.text ++ ("struct " ++ bytes_to_string nm ++ " \x7b") }).map
        fun r => (r.1.all id, { r.2 with text := r.2.text ++ "\x7d" }) := by
  have hopen := stream_add_struct_open abi stream (struct_name : Int) nm (by simpa using hname)
  unfold match_struct
  simp only [hptr, hopen, Option.bind_eq_bind, Option.some_bind, Int.toNat_ofNat,
    match_struct_loop_eq abi base sentinel_offset tail fields true _ hin]
  cases run_fields base fields
      { test := stream.test, text := stream.text ++ ("struct " ++ bytes_to_string nm ++ " \x7b") } with
  | none => rfl
  | some r => simp [stream_add_close]

/-- C8: for every sentinel-terminated field-entry sequence and every actual base pointer, the
struct matcher invokes every entry's child exactly once, in sequence order, on the base plus
the entry's offset, also after an earlier child has returned false; its verdict is the AND of
the child verdicts; the trace holds every child's trace in order.  For two fields whose
children answer `v1`, `v2` and write `t1`, `t2`, the result is `v1 && v2` (false as soon as
one mismatches) and the trace is `struct <name> {t1, t2, }`, with both traces present. -/
theorem struct_matcher_conjunction (abi : Abi) (test test1 : kunit) (struct_name : Nat)
    (fields : List (Nat × mock_param_matcher)) (sentinel_offset : Nat)
    (tail : List mock_struct_matcher_entry) (m : mock_param_matcher)
    (hbuild : kunit_struct_cmp abi test struct_name
      (fields.map (fun f => ⟨f.1, some f.2⟩) ++ ⟨sentinel_offset, none⟩ :: tail) = (some m, test1))
    (stream : kunit_stream) (pactual base : Nat) (nm : List Byte)
    (hptr : CONVERT_TO_ACTUAL_TYPE abi .ptr stream.test.mem pactual = some (base : Int))
    (hname : load_cstr stream.test.mem struct_name = some nm)
    (hin : ∀ f ∈ fields, base + f.1 < 2 ^ abi.long_bits) :
    m.match_ stream pactual =
        (run_fields base fields
            { stream with text := stream.text ++ ("struct " ++ bytes_to_string nm ++ " \x7b") }).map
          (fun r => (r.1.all id, { r.2 with text := r.2.text ++ "\x7d" })) ∧
      ∀ (o1 o2 : Nat) (c1 c2 : mock_param_matcher) (v1 v2 : Bool) (t1 t2 : String),
        fields = [(o1, c1), (o2, c2)] →
        c1.match_ { stream with text := stream.text ++
            ("struct " ++ bytes_to_string nm ++ " \x7b") } (base + o1) =
          some (v1, { stream with text := stream.text ++
            ("struct " ++ bytes_to_string nm ++ " \x7b") ++ t1 }) →
        c2.match_ { stream with text := stream.text ++
            ("struct " ++ bytes_to_string nm ++ " \x7b") ++ t1 ++ ", " } (base + o2) =
          some (v2, { stream with text := stream.text ++
            ("struct " ++ bytes_to_string nm ++ " \x7b") ++ t1 ++ ", " ++ t2 }) →
        m.match_ stream pactual =
          some (v1 && v2, { stream with text := stream.text ++
            ("struct " ++ bytes_to_string nm ++ " \x7b" ++ t1 ++ ", " ++ t2 ++ ", " ++ "\x7d") }) := by
  have hm := kunit_struct_cmp_some abi test test1 struct_name _ m hbuild
  have hmain : m.match_ stream pactual =
        (run_fields base fields
            { stream with text := stream.text ++ ("struct " ++ bytes_to_string nm ++ " \x7b") }).map
          (fun r => (r.1.all id, { r.2 with text := r.2.text ++ "\x7d" })) := by
    rw [hm]
    exact match_struct_eq abi struct_name fields sentinel_offset tail stream pactual base nm
      hptr hname hin
  refine ⟨hmain, ?_⟩
  intro o1 o2 c1 c2 v1 v2 t1 t2 hf h1 h2
  rw [hmain, hf]
  simp only [run_fields, h1, h2, Option.map_some', List.all_cons, List.all_nil, id,
    Bool.and_true]
  simp [String.append_assoc]

/-- Witness of C8: the struct matcher over `{0: int eq 5}, {4: streq "ok"}` on a structure
whose `int` is 6: the verdict is false and both field traces are written. -/
theorem struct_matcher_conjunction_witness :
    (mock_param_matcher.mk (match_struct abi_arm64 48 (entries_int_str abi_arm64))).match_
        ⟨test_struct, ""⟩ 16 =
      some (false && true, ⟨test_struct, "" ++ ("struct " ++ bytes_to_string [102, 111, 111] ++
        " \x7b" ++ "6 not == 5" ++ ", " ++ "ok == ok" ++ ", " ++ "\x7d")⟩) :=
  (struct_matcher_conjunction abi_arm64 test_struct
    (kunit_struct_cmp abi_arm64 test_struct 48 (entries_int_str abi_arm64)).2 48
    [(0, ⟨DEFINE_MATCH_FUNC abi_arm64 .int .eq 5⟩), (4, ⟨match_streq abi_arm64 60⟩)] 0 []
    ⟨match_struct abi_arm64 48 (entries_int_str abi_arm64)⟩ rfl ⟨test_struct, ""⟩ 16 64
    [102, 111, 111] (by decide) (by decide) (by decide)).2 0 4 _ _ false true
    "6 not == 5" "ok == ok" rfl
    (by decide) (by decide)

/-- C9 as stated fails: on a structure whose `int` field is 5 and whose string field is
`"ok"`, under the name `foo`, no run returns true with the trace
`struct foo { 5 == 5, ok == ok, }`. -/
theorem struct_example_counterexample :
    ¬ ∃ s, match_struct abi_arm64 48 (entries_int_str abi_arm64) ⟨test_struct, ""⟩ 8 =
        some (true, s) ∧ s.text = "struct foo \x7b 5 == 5, ok == ok, \x7d" := by
  have h : match_struct abi_arm64 48 (entries_int_str abi_arm64) ⟨test_struct, ""⟩ 8 =
      some (true, ⟨test_struct, "struct foo \x7b5 == 5, ok == ok, \x7d"⟩) := by decide
  rintro ⟨s, hs, ht⟩
  rw [h] at hs
  simp only [Option.some.injEq, Prod.mk.injEq, true_and] at hs
  subst hs
  revert ht
  decide

/-- C9 amended: the struct matcher built by `kunit_struct_cmp` with type name `<name>` and
the fields `{offset 0: int eq 5}`, `{offset 4: streq "ok"}` followed by the sentinel, matched
against a value whose `int` field is 5 and whose string field is `"ok"`, returns true and
appends exactly `struct <name> {5 == 5, ok == ok, }`: nothing stands between the opening
brace and the first field. -/
theorem struct_example_trace (abi : Abi) (test t1 t2 t3 : kunit) (struct_name pe : Nat)
    (sentinel_offset : Nat) (m1 m2 m : mock_param_matcher)
    (h1 : kunit_int_eq abi test 5 = (some m1, t1))
    (h2 : kunit_streq abi t1 pe = (some m2, t2))
    (hm : kunit_struct_cmp abi t2 struct_name
      [⟨0, some m1⟩, ⟨4, some m2⟩, ⟨sentinel_offset, none⟩] = (some m, t3))
    (stream : kunit_stream) (pactual base ps : Nat) (nm : List Byte)
    (hptr : CONVERT_TO_ACTUAL_TYPE abi .ptr stream.test.mem pactual = some (base : Int))
    (hname : load_cstr stream.test.mem struct_name = some nm)
    (hin : base + 4 < 2 ^ abi.long_bits)
    (hint : load_val abi .int stream.test.mem base = some 5)
    (hstr : CONVERT_TO_ACTUAL_TYPE abi .ptr stream.test.mem (base + 4) = some (ps : Int))
    (hs : load_cstr stream.test.mem ps = some [111, 107])
    (he : load_cstr stream.test.mem pe = some [111, 107]) :
    m.match_ stream pactual =
      some (true, { stream with text := stream.text ++
        ("struct " ++ bytes_to_string nm ++ " \x7b5 == 5, ok == ok, \x7d") }) := by
  rw [kunit_struct_cmp_some abi t2 t3 struct_name _ m hm]
  have hm1 := factory_some abi .int .eq test t1 5 m1 h1
  have hm2 := kunit_streq_some abi t1 t2 pe m2 h2
  have h5 : type_name.has_value abi .int 5 := by
    simp [type_name.has_value, type_name.min, type_name.max, type_name.bits,
      type_name.is_signed]
  have hc1 : ∀ txt : String,
      m1.match_ ⟨stream.test, txt⟩ (base + 0) = some (true, ⟨stream.test, txt ++ "5 == 5"⟩) := by
    intro txt
    rw [hm1]
    show DEFINE_MATCH_FUNC abi .int .eq 5 ⟨stream.test, txt⟩ (base + 0) = _
    rw [match_func_eq abi .int .eq 5 h5 ⟨stream.test, txt⟩ (base + 0) 5 (by simpa using hint),
      conv_text_integer abi .int 5 rfl h5]
    rfl
  have hc2 : ∀ txt : String,
      m2.match_ ⟨stream.test, txt⟩ (base + 4) = some (true, ⟨stream.test, txt ++ "ok == ok"⟩) := by
    intro txt
    rw [hm2]
    show match_streq abi pe ⟨stream.test, txt⟩ (base + 4) = _
    rw [match_streq_eq abi pe ⟨stream.test, txt⟩ (base + 4) ps [111, 107] [111, 107] hstr hs he]
    rfl
  have hfields := match_struct_eq abi struct_name [(0, m1), (4, m2)] sentinel_offset []
    stream pactual base nm hptr hname (by
      intro f hf
      simp at hf
      rcases hf with rfl | rfl <;> simp <;> omega)
  show match_struct abi struct_name [⟨0, some m1⟩, ⟨4, some m2⟩, ⟨sentinel_offset, none⟩]
    stream pactual = _
  simp only [List.map_cons, List.map_nil, List.cons_append, List.nil_append] at hfields
  rw [hfields]
  simp only [run_fields, hc1, hc2, Option.map_some', List.all_cons, List.all_nil, id,
    Bool.and_true]
  simp only [String.append_assoc]
  rfl

/-- Witness of the amended C9 on a concrete memory, under the name `foo`. -/
theorem struct_example_trace_witness :
    (mock_param_matcher.mk (match_struct abi_arm64 48 (entries_int_str abi_arm64))).match_
        ⟨test_struct, ""⟩ 8 =
      some (true, ⟨test_struct, "" ++ ("struct " ++ bytes_to_string [102, 111, 111] ++
        " \x7b5 == 5, ok == ok, \x7d")⟩) :=
  struct_example_trace abi_arm64 test_struct (kunit_int_eq abi_arm64 test_struct 5).2
    (kunit_streq abi_arm64 (kunit_int_eq abi_arm64 test_struct 5).2 60).2
    (kunit_struct_cmp abi_arm64
      (kunit_streq abi_arm64 (kunit_int_eq abi_arm64 test_struct 5).2 60).2 48
      (entries_int_str abi_arm64)).2
    48 60 0 ⟨DEFINE_MATCH_FUNC abi_arm64 .int .eq 5⟩ ⟨match_streq abi_arm64 60⟩
    ⟨match_struct abi_arm64 48 (entries_int_str abi_arm64)⟩ rfl rfl rfl
    ⟨test_struct, ""⟩ 8 32 56 [102, 111, 111] (by decide) (by decide) (by decide) (by decide)
    (by decide) (by decide) (by decide)

theorem le_encode_length (n v : Nat) : (le_encode n v).length = n := by
  induction n generalizing v with
  | zero => rfl
  | succ n ih => simp [le_encode, ih]

theorem le_decode_encode (n v : Nat) : le_decode (le_encode n v) = v % 256 ^ n := by
  induction n generalizing v with
  | zero => simp [le_encode, le_decode, Nat.mod_one]
  | succ n ih =>
    simp only [le_encode, le_decode, ih, Fin.ofNat, Fin.val_mk]
    rw [pow_succ, Nat.mul_comm (256 ^ n) 256, Nat.mod_mul]

/-- What has been stored at an address is what is read there. -/
theorem load_store_bytes (mem mem1 : List Byte) (p : Nat) (bs : List Byte)
    (h : store_bytes mem p bs = some mem1) :
    load_bytes mem1 p bs.length = some bs ∧ mem1.length = mem.length := by
  unfold store_bytes at h
  split at h
  · simp at h
  · rename_i hc
    simp only [Option.some.injEq] at h
    subst h
    have hp : p ≤ mem.length := by omega
    have hlen : (List.take p mem ++ bs ++ List.drop (p + bs.length) mem).length =
        mem.length := by
      simp [List.length_append, List.length_take, List.length_drop]
      omega
    refine ⟨?_, hlen⟩
    rw [load_bytes_of_valid _ p bs.length (by omega) (by rw [hlen]; omega)]
    have h1 : (List.take p mem).length = p := by simp [List.length_take]; omega
    rw [List.append_assoc, List.drop_append_of_le_length (by omega),
      List.drop_of_length_le (by omega), List.nil_append, List.take_left']
    rfl

theorem store_bytes_of_valid (mem : List Byte) (p : Nat) (bs : List Byte) (h0 : p ≠ 0)
    (h1 : p + bs.length ≤ mem.length) :
    store_bytes mem p bs = some (mem.take p ++ bs ++ mem.drop (p + bs.length)) := by
  unfold store_bytes
  rw [if_neg (by omega)]

theorem bits_div (abi : Abi) (T : type_name) : 8 * (T.bits abi / 8) = T.bits abi := by
  cases T <;> simp [type_name.bits, Abi.long_bits] <;> split <;> rfl

/-- A value of the type, once stored, is read back unchanged. -/
theorem load_store_val (abi : Abi) (T : type_name) (mem mem1 : List Byte) (p : Nat) (v : Int)
    (hv : T.has_value abi v) (h : store_val abi T mem p v = some mem1) :
    load_val abi T mem1 p = some v := by
  unfold store_val at h
  obtain ⟨hl, _⟩ := load_store_bytes mem mem1 p _ h
  rw [le_encode_length] at hl
  unfold load_val
  rw [hl, Option.map_some', le_decode_encode]
  have hpow : (256 : Nat) ^ (T.bits abi / 8) = 2 ^ T.bits abi := by
    rw [show (256 : Nat) = 2 ^ 8 by norm_num, ← pow_mul, bits_div]
  rw [hpow]
  have hpos : (0 : Int) < 2 ^ T.bits abi := by positivity
  have hu : wrap (T.bits abi) false v = v % 2 ^ T.bits abi := by simp [wrap]
  have hnn : 0 ≤ v % 2 ^ T.bits abi := Int.emod_nonneg v (ne_of_gt hpos)
  have hlt : v % 2 ^ T.bits abi < 2 ^ T.bits abi := Int.emod_lt_of_pos v hpos
  have hcast : (((wrap (T.bits abi) false v).toNat % 2 ^ T.bits abi : Nat) : Int) =
      v % 2 ^ T.bits abi := by
    rw [hu]
    push_cast
    rw [Int.toNat_of_nonneg hnn, Int.emod_emod_of_dvd v (dvd_refl _)]
  rw [hcast]
  congr 1
  have hw := wrap_of_has_value abi T v hv
  have hb := bits_pos abi T
  have hp := two_pow_split (T.bits abi) hb
  unfold type_name.has_value type_name.min type_name.max at hv
  cases hs : T.is_signed abi
  · simp only [hs, Bool.false_eq_true, if_false] at hv
    simp only [wrap, Bool.false_eq_true, if_false]
    rw [Int.emod_emod_of_dvd v (dvd_refl _)]
    exact Int.emod_eq_of_lt hv.1 (by omega)
  · simp only [hs, if_true] at hv
    simp only [wrap, if_true]
    rw [Int.emod_add_emod, Int.emod_eq_of_lt (by omega) (by omega)]
    omega

/-- A successful `kunit_kzalloc` hands out the arena frontier and advances it. -/
theorem kzalloc_ok (test : kunit) (n : Nat) (h : (kunit_kzalloc test n).1 ≠ 0) :
    kunit_kzalloc test n =
        (test.brk, ⟨test.mem.take test.brk ++ List.replicate n 0 ++
          test.mem.drop (test.brk + n), test.brk + n⟩) ∧
      test.brk ≠ 0 ∧ test.brk + n ≤ test.mem.length := by
  unfold kunit_kzalloc at h ⊢
  split
  · rename_i hc
    rw [if_pos hc] at h
    simp at h
  · rename_i hc
    exact ⟨rfl, by omega, by omega⟩

theorem take_splice (mem X Y : List Byte) (p : Nat) (hp : p ≤ mem.length) :
    (mem.take p ++ X ++ Y).take p = mem.take p := by
  have hl : (mem.take p).length = p := by simp [List.length_take]; omega
  rw [List.append_assoc, List.take_append_of_le_length (by omega),
    List.take_of_length_le (by omega)]

/-- The store into freshly allocated storage succeeds, the value is read back from it, and the
memory below it is untouched. -/
theorem capture_store_ok (abi : Abi) (T : type_name) (test : kunit) (x : Int)
    (hv : T.has_value abi x) (halloc : (kunit_kzalloc test (T.bits abi / 8)).1 ≠ 0) :
    ∃ mem1, store_val abi T (kunit_kzalloc test (T.bits abi / 8)).2.mem test.brk x = some mem1 ∧
      load_val abi T mem1 test.brk = some x ∧
      mem1.take test.brk = test.mem.take test.brk ∧ mem1.length = test.mem.length := by
  obtain ⟨hk, h0, h1⟩ := kzalloc_ok test _ halloc
  rw [hk]
  simp only
  have hlen : (List.take test.brk test.mem ++ List.replicate (T.bits abi / 8) 0 ++
      List.drop (test.brk + T.bits abi / 8) test.mem).length = test.mem.length := by
    simp [List.length_append, List.length_take, List.length_drop]
    omega
  have hst := store_bytes_of_valid
    (List.take test.brk test.mem ++ List.replicate (T.bits abi / 8) 0 ++
      List.drop (test.brk + T.bits abi / 8) test.mem) test.brk
    (le_encode (T.bits abi / 8) (wrap (T.bits abi) false x).toNat) h0
    (by rw [le_encode_length, hlen]; exact h1)
  refine ⟨_, hst, load_store_val abi T _ _ test.brk x hv hst, ?_, ?_⟩
  · rw [take_splice _ _ _ _ (by rw [hlen]; omega), take_splice _ _ _ _ (by omega)]
  · exact (load_store_bytes _ _ _ _ hst).2.trans hlen

theorem int_bits (abi : Abi) : type_name.bits abi .int / 8 = 4 := by
  simp [type_name.bits]

theorem ptr_bits (abi : Abi) : type_name.bits abi .ptr / 8 = abi.long_bits / 8 := by
  simp [type_name.bits]

/-- The function `mock_capture_int` when its allocation succeeds. -/
theorem mock_capture_int_ok (abi : Abi) (test : kunit) (param : Nat) (x : Int)
    (hx : load_val abi .int test.mem param = some x)
    (halloc : (kunit_kzalloc test 4).1 ≠ 0) :
    ∃ t1, mock_capture_int abi test param = some (test.brk, t1) ∧
      t1.brk = test.brk + 4 ∧ load_val abi .int t1.mem test.brk = some x ∧
      t1.mem.take test.brk = test.mem.take test.brk := by
  have hv := load_val_has_value abi .int _ _ _ hx
  rw [← int_bits abi] at halloc
  obtain ⟨mem1, hst, hld, hfr, _⟩ := capture_store_ok abi .int test x hv halloc
  obtain ⟨hk, h0, _⟩ := kzalloc_ok test _ halloc
  refine ⟨⟨mem1, test.brk + 4⟩, ?_, rfl, hld, hfr⟩
  simp only [int_bits] at hk hst
  rw [hk] at hst
  unfold mock_capture_int
  simp only [CONVERT_TO_ACTUAL_TYPE, hx, int_bits, hk, h0, if_false, hst]

/-- The function `mock_capture_ptr` when its allocation succeeds. -/
theorem mock_capture_ptr_ok (abi : Abi) (test : kunit) (param : Nat) (x : Int)
    (hx : load_val abi .ptr test.mem param = some x)
    (halloc : (kunit_kzalloc test (abi.long_bits / 8)).1 ≠ 0) :
    ∃ t1, mock_capture_ptr abi test param = some (test.brk, t1) ∧
      t1.brk = test.brk + abi.long_bits / 8 ∧ load_val abi .ptr t1.mem test.brk = some x ∧
      t1.mem.take test.brk = test.mem.take test.brk := by
  have hv := load_val_has_value abi .ptr _ _ _ hx
  rw [← ptr_bits abi] at halloc
  obtain ⟨mem1, hst, hld, hfr, _⟩ := capture_store_ok abi .ptr test x hv halloc
  obtain ⟨hk, h0, _⟩ := kzalloc_ok test _ halloc
  refine ⟨⟨mem1, test.brk + abi.long_bits / 8⟩, ?_, rfl, hld, hfr⟩
  simp only [ptr_bits] at hk hst
  rw [hk] at hst
  unfold mock_capture_ptr
  simp only [CONVERT_TO_ACTUAL_TYPE, hx, ptr_bits, hk, hst]

theorem capturer_create_some (abi : Abi) (test test1 : kunit)
    (child : Option mock_param_matcher) (f : kunit → Nat → Option (Nat × kunit))
    (c : mock_param_capturer)
    (h : mock_param_capturer_create abi test child f = (some c, test1)) :
    c = ⟨child, f, 0⟩ := by
  unfold mock_param_capturer_create at h
  split at h
  split at h
  · simp at h
  · simp at h
    exact h.1.symm

/-- The function `match_and_capture_param` when the child matcher returns true. -/
theorem match_and_capture_true (c : mock_param_capturer) (m : mock_param_matcher)
    (hc : c.child_matcher = some m) (stream s1 : kunit_stream) (p v : Nat) (t1 : kunit)
    (hm : m.match_ stream p = some (true, s1))
    (hf : c.capture_param s1.test p = some (v, t1)) :
    match_and_capture_param c stream p =
      some (true, { s1 with test := t1 }, { c with captured_param := v }) := by
  simp [match_and_capture_param, hc, hm, hf]

/-- The function `match_and_capture_param` when the child matcher returns false. -/
theorem match_and_capture_false (c : mock_param_capturer) (m : mock_param_matcher)
    (hc : c.child_matcher = some m) (stream s1 : kunit_stream) (p : Nat)
    (hm : m.match_ stream p = some (false, s1)) :
    match_and_capture_param c stream p = some (false, s1, c) := by
  simp [match_and_capture_param, hc, hm]

/-- C10: for every capturer created by `mock_param_capturer_create` with child matcher `m`
and capture function `f`, every prior value `old` of its slot and every argument `p`: when `m`
returns true on `p`, the slot afterwards holds the result of `f` for `p`, whatever it held
before; when `m` returns false, the slot and everything else are as the child left them, so `f`
has not run; the slot of a new capturer is null.  For the `int` and the pointer capturer, with
the allocation succeeding, the result of `f` is the arena frontier, fresh storage that reads
back the observed argument, and the memory below it is untouched. -/
theorem capturer_match (abi : Abi) (test test1 : kunit) (m : mock_param_matcher)
    (f : kunit → Nat → Option (Nat × kunit)) (c : mock_param_capturer)
    (hcreate : mock_param_capturer_create abi test (some m) f = (some c, test1)) :
    c.captured_param = 0 ∧
    (∀ (old : Nat) (stream s1 : kunit_stream) (p v : Nat) (t1 : kunit),
      m.match_ stream p = some (true, s1) → f s1.test p = some (v, t1) →
      match_and_capture_param { c with captured_param := old } stream p =
        some (true, { s1 with test := t1 }, { c with captured_param := v })) ∧
    (∀ (old : Nat) (stream s1 : kunit_stream) (p : Nat),
      m.match_ stream p = some (false, s1) →
      match_and_capture_param { c with captured_param := old } stream p =
        some (false, s1, { c with captured_param := old })) ∧
    (f = mock_capture_int abi →
      ∀ (old : Nat) (stream s1 : kunit_stream) (p : Nat) (x : Int),
        m.match_ stream p = some (true, s1) →
        load_val abi .int s1.test.mem p = some x →
        (kunit_kzalloc s1.test 4).1 ≠ 0 →
        ∃ t1, match_and_capture_param { c with captured_param := old } stream p =
            some (true, { s1 with test := t1 }, { c with captured_param := s1.test.brk }) ∧
          t1.brk = s1.test.brk + 4 ∧
          load_val abi .int t1.mem s1.test.brk = some x ∧
          t1.mem.take s1.test.brk = s1.test.mem.take s1.test.brk) ∧
    (f = mock_capture_ptr abi →
      ∀ (old : Nat) (stream s1 : kunit_stream) (p : Nat) (x : Int),
        m.match_ stream p = some (true, s1) →
        load_val abi .ptr s1.test.mem p = some x →
        (kunit_kzalloc s1.test (abi.long_bits / 8)).1 ≠ 0 →
        ∃ t1, match_and_capture_param { c with captured_param := old } stream p =
            some (true, { s1 with test := t1 }, { c with captured_param := s1.test.brk }) ∧
          t1.brk = s1.test.brk + abi.long_bits / 8 ∧
          load_val abi .ptr t1.mem s1.test.brk = some x ∧
          t1.mem.take s1.test.brk = s1.test.mem.take s1.test.brk) := by
  have hc := capturer_create_some abi test test1 (some m) f c hcreate
  subst hc
  refine ⟨rfl, ?_, ?_, ?_, ?_⟩
  · intro old stream s1 p v t1 hm hf
    exact match_and_capture_true _ m rfl stream s1 p v t1 hm hf
  · intro old stream s1 p hm
    exact match_and_capture_false _ m rfl stream s1 p hm
  · rintro rfl old stream s1 p x hm hx halloc
    obtain ⟨t1, hcap, hbrk, hld, hfr⟩ := mock_capture_int_ok abi s1.test p x hx halloc
    exact ⟨t1, match_and_capture_true _ m rfl stream s1 p _ t1 hm hcap, hbrk, hld, hfr⟩
  · rintro rfl old stream s1 p x hm hx halloc
    obtain ⟨t1, hcap, hbrk, hld, hfr⟩ := mock_capture_ptr_ok abi s1.test p x hx halloc
    exact ⟨t1, match_and_capture_true _ m rfl stream s1 p _ t1 hm hcap, hbrk, hld, hfr⟩

/-- Witness of C10: the `int` capturer over the matcher `int eq 42`, holding an earlier
capture at address 7, run on the stored `int` 42: the slot becomes the arena frontier 16 and
the storage there reads 42. -/
theorem capturer_match_witness :
    ∃ t1, match_and_capture_param
          ⟨some ⟨DEFINE_MATCH_FUNC abi_arm64 .int .eq 42⟩, mock_capture_int abi_arm64, 7⟩
          ⟨test_ints, ""⟩ 1 =
        some (true, ⟨t1, "42 == 42"⟩,
          ⟨some ⟨DEFINE_MATCH_FUNC abi_arm64 .int .eq 42⟩, mock_capture_int abi_arm64, 16⟩) ∧
      t1.brk = 16 + 4 ∧ load_val abi_arm64 .int t1.mem 16 = some 42 ∧
      t1.mem.take 16 = mem_ints.take 16 :=
  (capturer_match abi_arm64 test_ints
    (mock_param_capturer_create abi_arm64 test_ints
      (some ⟨DEFINE_MATCH_FUNC abi_arm64 .int .eq 42⟩) (mock_capture_int abi_arm64)).2
    ⟨DEFINE_MATCH_FUNC abi_arm64 .int .eq 42⟩ (mock_capture_int abi_arm64)
    ⟨some ⟨DEFINE_MATCH_FUNC abi_arm64 .int .eq 42⟩, mock_capture_int abi_arm64, 0⟩
    rfl).2.2.2.1 rfl 7 ⟨test_ints, ""⟩ ⟨test_ints, "42 == 42"⟩ 1 42 (by decide) (by decide)
    (by decide)

/-- One call on a capturer leaves the slot alone unless the child matcher returned true. -/
theorem match_and_capture_slot (c c1 : mock_param_capturer) (stream s1 : kunit_stream)
    (p : Nat) (v : Bool) (h : match_and_capture_param c stream p = some (v, s1, c1)) :
    v = false → c1.captured_param = c.captured_param := by
  intro hv
  subst hv
  unfold match_and_capture_param at h
  cases hc : c.child_matcher with
  | none => simp [hc] at h
  | some m =>
    simp only [hc] at h
    cases hm : m.match_ stream p with
    | none => simp [hm] at h
    | some r =>
      obtain ⟨b, s⟩ := r
      simp only [hm] at h
      cases b with
      | false =>
        simp at h
        rw [← h.2]
      | true =>
        simp only [if_true] at h
        cases hf : c.capture_param s.test p with
        | none => simp [hf] at h
        | some r2 => simp [hf] at h

/-- Along a sequence of calls the slot stays as it is in every call whose verdict is false, so
it changes at most as often as the child matcher returns true. -/
theorem capture_calls_changes (params : List Nat) :
    ∀ (c c2 : mock_param_capturer) (stream s2 : kunit_stream) (log : List (Bool × Nat)),
      capture_calls c stream params = some (log, s2, c2) →
      log.length = params.length ∧
        slot_changes c.captured_param log ≤ true_calls log := by
  induction params with
  | nil =>
    intro c c2 stream s2 log h
    simp [capture_calls] at h
    obtain ⟨rfl, _, _⟩ := h
    simp [slot_changes, true_calls]
  | cons p rest ih =>
    intro c c2 stream s2 log h
    rw [capture_calls] at h
    cases h1 : match_and_capture_param c stream p with
    | none => simp [h1] at h
    | some r =>
      obtain ⟨v, s1, c1⟩ := r
      simp only [h1] at h
      cases h2 : capture_calls c1 s1 rest with
      | none => simp [h2] at h
      | some r2 =>
        obtain ⟨log1, s3, c3⟩ := r2
        simp only [h2, Option.some.injEq, Prod.mk.injEq] at h
        obtain ⟨rfl, _, _⟩ := h
        obtain ⟨hlen, hch⟩ := ih c1 c3 s1 s3 log1 h2
        refine ⟨by simp [hlen], ?_⟩
        have hslot := match_and_capture_slot c c1 stream s1 p v h1
        cases v with
        | false =>
          simp only [slot_changes, hslot rfl, if_true, true_calls, List.filter] at hch ⊢
          simpa [true_calls] using hch
        | true =>
          simp only [slot_changes, true_calls, List.filter, List.length_cons] at hch ⊢
          split <;> simp [true_calls] at hch ⊢ <;> omega

theorem capture_calls_kept (params : List Nat) :
    ∀ (c c2 : mock_param_capturer) (stream s2 : kunit_stream) (log : List (Bool × Nat)),
      capture_calls c stream params = some (log, s2, c2) →
      kept_when_false c.captured_param log := by
  induction params with
  | nil =>
    intro c c2 stream s2 log h
    simp [capture_calls] at h
    obtain ⟨rfl, _, _⟩ := h
    trivial
  | cons p rest ih =>
    intro c c2 stream s2 log h
    rw [capture_calls] at h
    cases h1 : match_and_capture_param c stream p with
    | none => simp [h1] at h
    | some r =>
      obtain ⟨v, s1, c1⟩ := r
      simp only [h1] at h
      cases h2 : capture_calls c1 s1 rest with
      | none => simp [h2] at h
      | some r2 =>
        obtain ⟨log1, s3, c3⟩ := r2
        simp only [h2, Option.some.injEq, Prod.mk.injEq] at h
        obtain ⟨rfl, _, _⟩ := h
        exact ⟨match_and_capture_slot c c1 stream s1 p v h1, ih c1 c3 s1 s3 log1 h2⟩

/-- The log of two calls of the `int` capturer on the stored `int` 42: both match, and the slot
is 16 after the first and 20 after the second. -/
theorem capture_calls_twice :
    (capture_calls capturer_int_42 ⟨test_ints, ""⟩ [1, 1]).map (fun r => r.1) =
      some [(true, 16), (true, 20)] := by
  decide

/-- C11 as stated fails: in two calls of the `int` capturer over `int eq 42` on the stored
`int` 42 the slot is set twice, first to 16, then to 20. -/
theorem capturer_set_once_counterexample :
    ¬ ∀ (log : List (Bool × Nat)) (s2 : kunit_stream) (c2 : mock_param_capturer),
      capture_calls capturer_int_42 ⟨test_ints, ""⟩ [1, 1] = some (log, s2, c2) →
      slot_changes capturer_int_42.captured_param log ≤ 1 := by
  intro h
  have hlog := capture_calls_twice
  cases hr : capture_calls capturer_int_42 ⟨test_ints, ""⟩ [1, 1] with
  | none => simp [hr] at hlog
  | some r =>
    obtain ⟨log, s2, c2⟩ := r
    simp only [hr, Option.map_some', Option.some.injEq] at hlog
    subst hlog
    have h2 := h _ s2 c2 hr
    revert h2
    decide

/-- C11 amended: for every capturer and every finite sequence of match calls on it, the slot is
set only during a call in which the child matcher returned true: a call whose verdict is false
leaves it as it was, and it changes at most as often as the child matcher returns true.  It is
set again in every such call: when the child returns true the slot holds the result of the
capture function of that call, whatever it held before. -/
theorem capturer_set_when_true (c c2 : mock_param_capturer) (stream s2 : kunit_stream)
    (params : List Nat) (log : List (Bool × Nat))
    (hrun : capture_calls c stream params = some (log, s2, c2)) :
    log.length = params.length ∧
      kept_when_false c.captured_param log ∧
      slot_changes c.captured_param log ≤ true_calls log ∧
      ∀ (m : mock_param_matcher) (s s1 : kunit_stream) (p v old : Nat) (t1 : kunit),
        c.child_matcher = some m → m.match_ s p = some (true, s1) →
        c.capture_param s1.test p = some (v, t1) →
        match_and_capture_param { c with captured_param := old } s p =
          some (true, { s1 with test := t1 }, { c with captured_param := v }) := by
  obtain ⟨hlen, hch⟩ := capture_calls_changes params c c2 stream s2 log hrun
  refine ⟨hlen, capture_calls_kept params c c2 stream s2 log hrun, hch, ?_⟩
  intro m s s1 p v old t1 hc hm hf
  exact match_and_capture_true { c with captured_param := old } m hc s s1 p v t1 hm hf

/-- Witness of the amended C11: the two calls of the `int` capturer on the stored `int` 42;
the slot changes twice, in the two calls that match. -/
theorem capturer_set_when_true_witness :
    ∃ log, (capture_calls capturer_int_42 ⟨test_ints, ""⟩ [1, 1]).map (fun r => r.1) =
        some log ∧
      log.length = 2 ∧ kept_when_false 0 log ∧ slot_changes 0 log ≤ true_calls log ∧
      slot_changes 0 log = 2 := by
  have hlog := capture_calls_twice
  cases hr : capture_calls capturer_int_42 ⟨test_ints, ""⟩ [1, 1] with
  | none => simp [hr] at hlog
  | some r =>
    obtain ⟨log, s2, c2⟩ := r
    have h := capturer_set_when_true capturer_int_42 c2 ⟨test_ints, ""⟩ s2 [1, 1] log hr
    simp only [hr, Option.map_some', Option.some.injEq] at hlog
    subst hlog
    exact ⟨[(true, 16), (true, 20)], rfl, h.1, h.2.1, h.2.2.1, by decide⟩

/-- A failed `kunit_kzalloc` returns the null pointer and leaves the test as it was. -/
theorem kzalloc_fail (test : kunit) (n : Nat) (h : (kunit_kzalloc test n).1 = 0) :
    kunit_kzalloc test n = (0, test) := by
  unfold kunit_kzalloc at h ⊢
  split
  · rfl
  · rename_i hc
    rw [if_neg hc] at h
    simp at h
    omega

/-- The function `mock_capture_int` when its allocation fails: it returns the null pointer. -/
theorem mock_capture_int_alloc_fail (abi : Abi) (test : kunit) (param : Nat) (x : Int)
    (hx : load_val abi .int test.mem param = some x)
    (hfail : (kunit_kzalloc test 4).1 = 0) :
    mock_capture_int abi test param = some (0, test) := by
  unfold mock_capture_int
  simp only [CONVERT_TO_ACTUAL_TYPE, hx, int_bits, kzalloc_fail test 4 hfail, if_true]

/-- The function `mock_capture_ptr` when its allocation fails: the store through the null
pointer faults. -/
theorem mock_capture_ptr_alloc_fail (abi : Abi) (test : kunit) (param : Nat) (x : Int)
    (hx : load_val abi .ptr test.mem param = some x)
    (hfail : (kunit_kzalloc test (abi.long_bits / 8)).1 = 0) :
    mock_capture_ptr abi test param = none := by
  unfold mock_capture_ptr
  simp only [CONVERT_TO_ACTUAL_TYPE, hx, ptr_bits, kzalloc_fail test _ hfail]
  simp [store_val, store_bytes]

/-- C12, the code at a failing input: with the arena used up, the `int` capturer returns true
and leaves the slot null, but the pointer capturer faults in `mock_capture_ptr`, at the store
through the null pointer the failed allocation returned. -/
theorem capture_ptr_alloc_failure :
    (kunit_kzalloc test_ints_full 8).1 = 0 ∧
      (match_and_capture_param ⟨some (any_matcher abi_arm64), mock_capture_int abi_arm64, 7⟩
        ⟨test_ints_full, ""⟩ 1).map (fun r => (r.1, r.2.2.captured_param)) = some (true, 0) ∧
      mock_capture_ptr abi_arm64 test_ints_full 1 = none ∧
      (match_and_capture_param ⟨some (any_matcher abi_arm64), mock_capture_ptr abi_arm64, 7⟩
        ⟨test_ints_full, ""⟩ 1).isNone = true := by
  decide

/-- A successful `kunit_kmalloc` hands out the arena frontier and advances it. -/
theorem kmalloc_ok (test : kunit) (n : Nat) (h : (kunit_kmalloc test n).1 ≠ 0) :
    kunit_kmalloc test n = (test.brk, { test with brk := test.brk + n }) ∧
      test.brk ≠ 0 ∧ test.brk + n ≤ test.mem.length := by
  unfold kunit_kmalloc at h ⊢
  split
  · rename_i hc
    rw [if_pos hc] at h
    simp at h
  · rename_i hc
    exact ⟨rfl, by omega, by omega⟩

/-- A failed `kunit_kmalloc` returns the null pointer and leaves the test as it was. -/
theorem kmalloc_fail (test : kunit) (n : Nat) (h : (kunit_kmalloc test n).1 = 0) :
    kunit_kmalloc test n = (0, test) := by
  unfold kunit_kmalloc at h ⊢
  split
  · rfl
  · rename_i hc
    rw [if_neg hc] at h
    simp at h
    omega

theorem return_object_value (abi : Abi) (T : return_type_name) (v : Int)
    (h : T.has_value abi v) : T.object_type.has_value abi v := by
  cases T with
  | bool =>
    simp only [return_type_name.has_value] at h
    simp only [return_type_name.object_type, type_name.has_value, type_name.min, type_name.max,
      type_name.is_signed, type_name.bits]
    rcases h with rfl | rfl <;> norm_num
  | of T => exact h

/-- The member `ret` lies inside the action object. -/
theorem ret_inside (abi : Abi) (T : return_type_name) :
    offsetof_ret abi T + T.size abi ≤ sizeof_mock_action abi T := by
  unfold offsetof_ret sizeof_mock_action
  have h1 : abi.long_bits / 8 ≤ Nat.max (abi.long_bits / 8) (T.size abi) := Nat.le_max_left _ _
  have h2 : T.size abi ≤ Nat.max (abi.long_bits / 8) (T.size abi) := Nat.le_max_right _ _
  omega

theorem long_bytes_pos (abi : Abi) : 0 < abi.long_bits / 8 := by
  rcases long_bits_cases abi with h | h <;> rw [h] <;> norm_num

/-- The constructor of a return action when its allocation succeeds: the action object is at
the arena frontier, its `do_action` is the return function for that address, and the memory
has the value stored in the member `ret`. -/
theorem return_factory_ok (abi : Abi) (T : return_type_name) (test : kunit) (v : Int)
    (halloc : (kunit_kmalloc test (sizeof_mock_action abi T)).1 ≠ 0) :
    ∃ mem1, store_val abi T.object_type test.mem (test.brk + offsetof_ret abi T) v =
        some mem1 ∧
      DEFINE_RETURN_ACTION_FACTORY abi T test v =
        some (some ⟨DEFINE_RETURN_ACTION_FUNC abi T test.brk⟩,
          ⟨mem1, test.brk + sizeof_mock_action abi T⟩) := by
  obtain ⟨hk, h0, h1⟩ := kmalloc_ok test _ halloc
  have hin := ret_inside abi T
  have hst := store_bytes_of_valid test.mem (test.brk + offsetof_ret abi T)
    (le_encode (T.object_type.bits abi / 8) (wrap (T.object_type.bits abi) false v).toNat)
    (by omega) (by
      rw [le_encode_length]
      unfold return_type_name.size at hin
      omega)
  refine ⟨_, hst, ?_⟩
  unfold DEFINE_RETURN_ACTION_FACTORY
  simp only [hk, h0, if_false]
  unfold store_val
  rw [hst]

/-- The constructor of a return action when its allocation fails: the null handle. -/
theorem return_factory_fail (abi : Abi) (T : return_type_name) (test : kunit) (v : Int)
    (hfail : (kunit_kmalloc test (sizeof_mock_action abi T)).1 = 0) :
    DEFINE_RETURN_ACTION_FACTORY abi T test v = some (none, test) := by
  unfold DEFINE_RETURN_ACTION_FACTORY
  simp only [kmalloc_fail test _ hfail, if_true]

/-- C13: for every return type `T` (`bool`, the integer and character types, pointer), every
value `v` of `T` and every `params` and `len`, the action built by `kunit_<T>_return(test, v)`
returns from `do_action` a pointer to its own member `ret`, and the object stored there is
`v`; the result does not depend on `params` or `len`, and the call changes nothing. -/
theorem return_action_value (abi : Abi) (T : return_type_name) (test test1 : kunit) (v : Int)
    (a : mock_action)
    (hbuild : DEFINE_RETURN_ACTION_FACTORY abi T test v = some (some a, test1))
    (hv : T.has_value abi v) :
    (∀ (state : kunit) (params : Nat) (len : Int),
        a.do_action state params len = some (test.brk + offsetof_ret abi T, state)) ∧
      offsetof_ret abi T + T.size abi ≤ sizeof_mock_action abi T ∧
      test1.brk = test.brk + sizeof_mock_action abi T ∧
      load_val abi T.object_type test1.mem (test.brk + offsetof_ret abi T) = some v := by
  have halloc : (kunit_kmalloc test (sizeof_mock_action abi T)).1 ≠ 0 := by
    intro hfail
    rw [return_factory_fail abi T test v hfail] at hbuild
    simp at hbuild
  obtain ⟨mem1, hst, hf⟩ := return_factory_ok abi T test v halloc
  rw [hf] at hbuild
  simp only [Option.some.injEq, Prod.mk.injEq] at hbuild
  obtain ⟨ha, ht⟩ := hbuild
  subst ha
  subst ht
  refine ⟨fun state params len => rfl, ret_inside abi T, rfl, ?_⟩
  exact load_store_val abi T.object_type test.mem mem1 _ v (return_object_value abi T v hv) hst

/-- The concrete run of `kunit_int_return(test, -7)`. -/
theorem return_factory_example :
    DEFINE_RETURN_ACTION_FACTORY abi_arm64 (.of .int) test_ints (-7) =
      some (some ⟨DEFINE_RETURN_ACTION_FUNC abi_arm64 (.of .int) 16⟩, ⟨mem_ints_ret, 32⟩) := by
  obtain ⟨mem1, hst, hf⟩ := return_factory_ok abi_arm64 (.of .int) test_ints (-7) (by decide)
  have h2 : store_val abi_arm64 (return_type_name.of .int).object_type test_ints.mem
      (test_ints.brk + offsetof_ret abi_arm64 (.of .int)) (-7) = some mem_ints_ret := by
    decide
  rw [h2] at hst
  rw [hf, ← Option.some.inj hst]
  rfl

/-- Witness of C13: `kunit_int_return(test, -7)` on a concrete test: the action object is at
address 16, `do_action` returns address 24 for any parameters, and the `int` there is -7. -/
theorem return_action_value_witness :
    (∀ (state : kunit) (params : Nat) (len : Int),
        DEFINE_RETURN_ACTION_FUNC abi_arm64 (.of .int) 16 state params len =
          some (16 + offsetof_ret abi_arm64 (.of .int), state)) ∧
      load_val abi_arm64 .int mem_ints_ret (16 + offsetof_ret abi_arm64 (.of .int)) =
        some (-7) :=
  have h := return_action_value abi_arm64 (.of .int) test_ints ⟨mem_ints_ret, 32⟩
    (-7) ⟨DEFINE_RETURN_ACTION_FUNC abi_arm64 (.of .int) 16⟩ return_factory_example
    (show type_name.has_value abi_arm64 .int (-7) by decide)
  ⟨h.1, h.2.2.2⟩

theorem invoke_some (abi : Abi) (ptest : Nat) (test test1 : kunit)
    (g : Nat → kunit → Nat → Int → Option (Nat × kunit)) (a : mock_action)
    (h : invoke abi ptest test g = (some a, test1)) :
    a = ⟨do_invoke ⟨ptest, g⟩⟩ := by
  unfold invoke at h
  split at h
  split at h
  · simp at h
  · simp at h
    exact h.1.symm

/-- C16: for every delegate `g`, every `params` and every `len`, `do_action` of the action
built by `invoke(test, g)` is one call of `g` with the test pointer given at construction and
with `params` and `len` as they came: it returns what `g` returns and leaves the state `g`
leaves. -/
theorem invoke_forwards (abi : Abi) (ptest : Nat) (test test1 : kunit)
    (g : Nat → kunit → Nat → Int → Option (Nat × kunit)) (a : mock_action)
    (hbuild : invoke abi ptest test g = (some a, test1)) :
    ∀ (state : kunit) (params : Nat) (len : Int),
      a.do_action state params len = g ptest state params len := by
  intro state params len
  rw [invoke_some abi ptest test test1 g a hbuild]
  rfl

/-- Witness of C16: the action built over `delegate_example` with the test pointer 4096,
called with the parameter array at 100 and length 3. -/
theorem invoke_forwards_witness :
    (mock_action.mk (do_invoke ⟨4096, delegate_example⟩)).do_action test_ints 100 3 =
      some (4199, ⟨mem_ints, 17⟩) :=
  invoke_forwards abi_arm64 4096 test_ints (invoke abi_arm64 4096 test_ints delegate_example).2
    delegate_example ⟨do_invoke ⟨4096, delegate_example⟩⟩ rfl test_ints 100 3

/-- C17: for every test, `kunit_any` returns the one shared matcher `any_matcher` and leaves
the test as it is (it allocates nothing, so it cannot fail); for every actual value, `match`
of that matcher returns true and appends exactly `don't care`. -/
theorem any_matcher_wildcard (abi : Abi) :
    (∀ test : kunit, kunit_any abi test = (some (any_matcher abi), test)) ∧
      ∀ (stream : kunit_stream) (actual : Nat),
        (any_matcher abi).match_ stream actual =
          some (true, { stream with text := stream.text ++ "don't care" }) :=
  ⟨fun _ => rfl, fun _ _ => rfl⟩

/-- The three complementary pairs and the trichotomy of the relations on integers. -/
theorem rel_op_pairs (a e : Int) :
    rel_op.ne.eval a e = !rel_op.eq.eval a e ∧
      rel_op.ge.eval a e = !rel_op.lt.eval a e ∧
      rel_op.gt.eval a e = !rel_op.le.eval a e ∧
      ((rel_op.lt.eval a e = true ∧ rel_op.eq.eval a e = false ∧ rel_op.gt.eval a e = false) ∨
       (rel_op.lt.eval a e = false ∧ rel_op.eq.eval a e = true ∧ rel_op.gt.eval a e = false) ∨
       (rel_op.lt.eval a e = false ∧ rel_op.eq.eval a e = false ∧ rel_op.gt.eval a e = true)) := by
  simp only [rel_op.eval]
  refine ⟨?_, ?_, ?_, ?_⟩
  · by_cases h : a = e <;> simp [h]
  · by_cases h : a < e
    · simp [h]
    · simp [h]; omega
  · by_cases h : a ≤ e
    · simp [h]
    · simp [h]; omega
  · rcases lt_trichotomy a e with h | h | h
    · left; simp; omega
    · right; left; simp; omega
    · right; right; simp; omega

/-- C19: for every primitive type `T` and all values `actual` and `expected` of `T`, the six
relational matchers return, on the same actual and expected value, verdicts in complementary
pairs: `ne` is the negation of `eq`, `ge` of `lt`, `gt` of `le`; and exactly one of `lt`, `eq`,
`gt` returns true. -/
theorem relational_matchers_complementary (abi : Abi) (T : type_name) (expected : Int)
    (m : rel_op → mock_param_matcher)
    (hbuild : ∀ op, ∃ test test1,
      DEFINE_MATCH_FACTORY abi T op test expected = (some (m op), test1))
    (hexp : T.has_value abi expected)
    (stream : kunit_stream) (pactual : Nat) (actual : Int)
    (hact : load_val abi T stream.test.mem pactual = some actual) :
    ∃ v : rel_op → Bool,
      (∀ op, ∃ s, (m op).match_ stream pactual = some (v op, s)) ∧
      v .ne = !v .eq ∧ v .ge = !v .lt ∧ v .gt = !v .le ∧
      ((v .lt = true ∧ v .eq = false ∧ v .gt = false) ∨
       (v .lt = false ∧ v .eq = true ∧ v .gt = false) ∨
       (v .lt = false ∧ v .eq = false ∧ v .gt = true)) := by
  refine ⟨fun op => op.eval actual expected, ?_, rel_op_pairs actual expected⟩
  intro op
  obtain ⟨test, test1, hb⟩ := hbuild op
  rw [factory_some abi T op test test1 expected (m op) hb]
  exact ⟨_, match_func_eq abi T op expected hexp stream pactual actual hact⟩

/-- Witness of C19: the six `signed char` matchers with expected 0 on the byte `0xff`. -/
theorem relational_matchers_complementary_witness :
    ∃ v : rel_op → Bool,
      (∀ op, ∃ s, (mock_param_matcher.mk (DEFINE_MATCH_FUNC abi_arm64 .schar op 0)).match_
        ⟨test_ints, ""⟩ 9 = some (v op, s)) ∧
      v .ne = !v .eq ∧ v .ge = !v .lt ∧ v .gt = !v .le ∧
      ((v .lt = true ∧ v .eq = false ∧ v .gt = false) ∨
       (v .lt = false ∧ v .eq = true ∧ v .gt = false) ∨
       (v .lt = false ∧ v .eq = false ∧ v .gt = true)) :=
  relational_matchers_complementary abi_arm64 .schar 0
    (fun op => ⟨DEFINE_MATCH_FUNC abi_arm64 .schar op 0⟩)
    (fun op => ⟨test_ints, (DEFINE_MATCH_FACTORY abi_arm64 .schar op test_ints 0).2, rfl⟩)
    (by decide) ⟨test_ints, ""⟩ 9 (-1) (by decide)

theorem va_format_cmp_some (abi : Abi) (str_va_format : Nat) (test test1 : kunit)
    (fmt_matcher va_matcher : Option mock_param_matcher) (m : mock_param_matcher)
    (h : kunit_va_format_cmp abi str_va_format test fmt_matcher va_matcher = (some m, test1)) :
    m = ⟨match_struct abi str_va_format
      [⟨0, fmt_matcher⟩, ⟨abi.long_bits / 8, va_matcher⟩, ⟨0, none⟩]⟩ := by
  unfold kunit_va_format_cmp at h
  split at h
  split at h
  · simp at h
  · exact kunit_struct_cmp_some abi _ test1 str_va_format _ m h

/-- C18: for all non-null sub-matchers `fmt_m` and `va_m`, the matcher built by
`kunit_va_format_cmp(test, fmt_m, va_m)` is the struct matcher named `va_format` over the
entries `fmt` (offset 0), `va` (offset one pointer) and the sentinel; matching a `va_format`
value at `base` invokes `fmt_m` on `base` and then `va_m` on the address of `va`, returns the
AND of the two verdicts and writes `struct va_format {` + the trace of `fmt_m` + `, ` + the
trace of `va_m` + `, }`. -/
theorem va_format_matcher (abi : Abi) (str_va_format : Nat) (test test1 : kunit)
    (fmt_m va_m m : mock_param_matcher)
    (hbuild : kunit_va_format_cmp abi str_va_format test (some fmt_m) (some va_m) =
      (some m, test1))
    (stream : kunit_stream) (pactual base : Nat)
    (hptr : CONVERT_TO_ACTUAL_TYPE abi .ptr stream.test.mem pactual = some (base : Int))
    (hname : load_cstr stream.test.mem str_va_format = some str_va_format_bytes)
    (hin : base + abi.long_bits / 8 < 2 ^ abi.long_bits) :
    m = ⟨match_struct abi str_va_format
        [⟨offsetof_va_format_fmt, some fmt_m⟩, ⟨offsetof_va_format_va abi, some va_m⟩,
         ⟨0, none⟩]⟩ ∧
      m.match_ stream pactual =
        (run_fields base [(0, fmt_m), (abi.long_bits / 8, va_m)]
            { stream with text := stream.text ++ "struct va_format \x7b" }).map
          (fun r => (r.1.all id, { r.2 with text := r.2.text ++ "\x7d" })) ∧
      (∀ (v1 v2 : Bool) (s1 s2 : kunit_stream),
        fmt_m.match_ { stream with text := stream.text ++ "struct va_format \x7b" } base =
          some (v1, s1) →
        va_m.match_ { s1 with text := s1.text ++ ", " } (base + abi.long_bits / 8) =
          some (v2, s2) →
        m.match_ stream pactual =
          some (v1 && v2, { s2 with text := s2.text ++ ", " ++ "\x7d" })) ∧
      ∀ (v1 v2 : Bool) (t1 t2 : String),
        fmt_m.match_ { stream with text := stream.text ++ "struct va_format \x7b" } base =
          some (v1, { stream with text := stream.text ++ "struct va_format \x7b" ++ t1 }) →
        va_m.match_ { stream with text := stream.text ++ "struct va_format \x7b" ++ t1 ++ ", " }
            (base + abi.long_bits / 8) =
          some (v2, { stream with
            text := stream.text ++ "struct va_format \x7b" ++ t1 ++ ", " ++ t2 }) →
        m.match_ stream pactual =
          some (v1 && v2, { stream with text := stream.text ++
            ("struct va_format \x7b" ++ t1 ++ ", " ++ t2 ++ ", \x7d") }) := by
  have hm := va_format_cmp_some abi str_va_format test test1 _ _ m hbuild
  have hmain : m.match_ stream pactual =
      (run_fields base [(0, fmt_m), (abi.long_bits / 8, va_m)]
          { stream with text := stream.text ++ "struct va_format \x7b" }).map
        (fun r => (r.1.all id, { r.2 with text := r.2.text ++ "\x7d" })) := by
    rw [hm]
    exact match_struct_eq abi str_va_format [(0, fmt_m), (abi.long_bits / 8, va_m)] 0 []
      stream pactual base str_va_format_bytes hptr hname (by
        intro f hf
        simp only [List.mem_cons, List.mem_singleton, List.not_mem_nil, or_false] at hf
        rcases hf with rfl | rfl
        · show base + 0 < _
          omega
        · exact hin)
  refine ⟨hm, hmain, ?_, ?_⟩
  · intro v1 v2 s1 s2 h1 h2
    rw [hmain]
    simp only [run_fields, Nat.add_zero, h1, h2, Option.map_some', List.all_cons, List.all_nil,
      id, Bool.and_true]
  · intro v1 v2 t1 t2 h1 h2
    rw [hmain]
    simp only [run_fields, Nat.add_zero, h1, h2, Option.map_some', List.all_cons, List.all_nil,
      id, Bool.and_true]
    simp [String.append_assoc]

/-- Witness of C18: the `va_format` matcher over `streq "%d"` and the wildcard, on the
structure of `mem_va`. -/
theorem va_format_matcher_witness :
    (mock_param_matcher.mk (match_struct abi_arm64 16
        [⟨0, some ⟨match_streq abi_arm64 52⟩⟩, ⟨8, some (any_matcher abi_arm64)⟩,
         ⟨0, none⟩])).match_ ⟨test_va, ""⟩ 8 =
      some (true && true, ⟨test_va, "" ++
        ("struct va_format \x7b" ++ "%d == %d" ++ ", " ++ "don't care" ++ ", \x7d")⟩) :=
  (va_format_matcher abi_arm64 16 test_va
    (kunit_va_format_cmp abi_arm64 16 test_va (some ⟨match_streq abi_arm64 52⟩)
      (some (any_matcher abi_arm64))).2
    ⟨match_streq abi_arm64 52⟩ (any_matcher abi_arm64)
    ⟨match_struct abi_arm64 16
        [⟨0, some ⟨match_streq abi_arm64 52⟩⟩, ⟨8, some (any_matcher abi_arm64)⟩,
         ⟨0, none⟩]⟩ rfl ⟨test_va, ""⟩ 8 32 (by decide) (by decide) (by decide)).2.2.2
    true true "%d == %d" "don't care" (by decide) (by decide)

/-- A struct matcher whose first entry has a null child: nothing but the opening and the
closing text is written and the verdict is true. -/
theorem match_struct_first_null (abi : Abi) (struct_name : Nat) (offset : Nat)
    (tail : List mock_struct_matcher_entry) (stream : kunit_stream) (pactual base : Nat)
    (nm : List Byte)
    (hptr : CONVERT_TO_ACTUAL_TYPE abi .ptr stream.test.mem pactual = some (base : Int))
    (hname : load_cstr stream.test.mem struct_name = some nm) :
    match_struct abi struct_name (⟨offset, none⟩ :: tail) stream pactual =
      some (true, { stream with
        text := stream.text ++ ("struct " ++ bytes_to_string nm ++ " \x7b\x7d") }) := by
  have h := match_struct_eq abi struct_name [] offset tail stream pactual base nm hptr hname
    (by intro f hf; cases hf)
  simp only [List.map_nil, List.nil_append] at h
  rw [h]
  simp [run_fields, String.append_assoc]

/-- C20: an entry with a null child ends a struct matcher.  For every `va_matcher` (also one
that would fault if it were called) and every actual value, the matcher built by
`kunit_va_format_cmp(test, NULL, va_matcher)` returns true and writes exactly
`struct va_format {}`; and every struct matcher whose first entry has a null child returns true
for every actual value, whatever follows that entry. -/
theorem null_child_ends_struct (abi : Abi) (str_va_format : Nat) (test test1 : kunit)
    (va_matcher : Option mock_param_matcher) (m : mock_param_matcher)
    (hbuild : kunit_va_format_cmp abi str_va_format test none va_matcher = (some m, test1))
    (stream : kunit_stream) (pactual base : Nat)
    (hptr : CONVERT_TO_ACTUAL_TYPE abi .ptr stream.test.mem pactual = some (base : Int))
    (hname : load_cstr stream.test.mem str_va_format = some str_va_format_bytes) :
    m.match_ stream pactual =
        some (true, { stream with text := stream.text ++ "struct va_format \x7b\x7d" }) ∧
      ∀ (struct_name offset : Nat) (tail : List mock_struct_matcher_entry) (nm : List Byte),
        load_cstr stream.test.mem struct_name = some nm →
        match_struct abi struct_name (⟨offset, none⟩ :: tail) stream pactual =
          some (true, { stream with
            text := stream.text ++ ("struct " ++ bytes_to_string nm ++ " \x7b\x7d") }) := by
  constructor
  · rw [va_format_cmp_some abi str_va_format test test1 _ _ m hbuild]
    exact match_struct_first_null abi str_va_format 0 _ stream pactual base
      str_va_format_bytes hptr hname
  · intro struct_name offset tail nm hn
    exact match_struct_first_null abi struct_name offset tail stream pactual base nm hptr hn

/-- Witness of C20: the `va_format` matcher with a null `fmt` sub-matcher and a `va`
sub-matcher that faults when called, on the structure of `mem_va`. -/
theorem null_child_ends_struct_witness :
    (mock_param_matcher.mk (match_struct abi_arm64 16
        [⟨0, none⟩, ⟨8, some faulting_matcher⟩, ⟨0, none⟩])).match_ ⟨test_va, ""⟩ 8 =
      some (true, ⟨test_va, "" ++ "struct va_format \x7b\x7d"⟩) :=
  (null_child_ends_struct abi_arm64 16 test_va
    (kunit_va_format_cmp abi_arm64 16 test_va none (some faulting_matcher)).2
    (some faulting_matcher)
    ⟨match_struct abi_arm64 16 [⟨0, none⟩, ⟨8, some faulting_matcher⟩, ⟨0, none⟩]⟩ rfl
    ⟨test_va, ""⟩ 8 32 (by decide) (by decide)).1

theorem stream_add_type_open (abi : Abi) (s : kunit_stream) (name : Int) (nm : List Byte)
    (h : load_cstr s.test.mem name.toNat = some nm) :
    kunit_stream_add abi s "%s \x7b" [name] =
      some { s with text := s.text ++ (bytes_to_string nm ++ " \x7b") } := by
  simp only [kunit_stream_add, vsnprintf]
  rw [show ([ '%', 's', ' ', '\x7b' ] : List Char) =
    ('%' :: 's' :: ([ ' ', '\x7b' ] ++ [])) from rfl]
  rw [fmt_run_s abi _ _ name _ nm h, fmt_run_lit abi _ _ _ _ (by decide), fmt_run_nil]
  rfl

/-- The loop of `mock_format_struct` over the fields in front of the sentinel is
`run_format_fields`; what follows the sentinel is not visited. -/
theorem mock_format_struct_loop_eq (abi : Abi) (base : Nat) (sentinel_offset : Nat)
    (tail : List mock_struct_formatter_entry) :
    ∀ (fields : List (Nat × mock_param_formatter)) (stream : kunit_stream),
      (∀ f ∈ fields, base + f.1 < 2 ^ abi.long_bits) →
      mock_format_struct_loop abi base
          (fields.map (fun f => ⟨f.1, some f.2⟩) ++ ⟨sentinel_offset, none⟩ :: tail) stream =
        run_format_fields base fields stream := by
  intro fields
  induction fields with
  | nil =>
    intro stream _
    simp [mock_format_struct_loop, run_format_fields]
  | cons f rest ih =>
    intro stream hin
    obtain ⟨offset, child⟩ := f
    have hoff : base + offset < 2 ^ abi.long_bits := hin (offset, child) (List.mem_cons_self _ _)
    simp only [List.map_cons, List.cons_append]
    rw [mock_format_struct_loop, run_format_fields]
    simp only [ptr_add_nat abi base offset hoff]
    cases hc : child.format stream (base + offset) with
    | none => rfl
    | some s1 =>
      simp only [stream_add_comma]
      exact ih _ (fun g hg => hin g (List.mem_cons_of_mem _ hg))

theorem mock_struct_formatter_some (abi : Abi) (test test1 : kunit) (type_name : Nat)
    (entries : List mock_struct_formatter_entry) (f : mock_param_formatter)
    (h : mock_struct_formatter abi test type_name entries = (some f, test1)) :
    f = ⟨type_name, mock_format_struct abi type_name entries⟩ := by
  unfold mock_struct_formatter at h
  split at h
  split at h
  · simp at h
  · simp at h
    exact h.1.symm

/-- The function `mock_format_struct` over a sentinel-terminated array: the type name and the
opening brace, the fields run by `run_format_fields`, the closing brace. -/
theorem mock_format_struct_eq (abi : Abi) (type_name : Nat)
    (fields : List (Nat × mock_param_formatter)) (sentinel_offset : Nat)
    (tail : List mock_struct_formatter_entry) (stream : kunit_stream) (pparam base : Nat)
    (nm : List Byte)
    (hptr : CONVERT_TO_ACTUAL_TYPE abi .ptr stream.test.mem pparam = some (base : Int))
    (hname : load_cstr stream.test.mem type_name = some nm)
    (hin : ∀ f ∈ fields, base + f.1 < 2 ^ abi.long_bits) :
    mock_format_struct abi type_name
        (fields.map (fun f => ⟨f.1, some f.2⟩) ++ ⟨sentinel_offset, none⟩ :: tail)
        stream pparam =
      (run_format_fields base fields
          { stream with text := stream.text ++ (bytes_to_string nm ++ " \x7b") }).map
        fun s => { s with text := s.text ++ "\x7d" } := by
  have hopen := stream_add_type_open abi stream (type_name : Int) nm (by simpa using hname)
  unfold mock_format_struct
  simp only [hptr, hopen, Option.bind_eq_bind, Option.some_bind, Int.toNat_ofNat,
    mock_format_struct_loop_eq abi base sentinel_offset tail fields _ hin]
  cases run_format_fields base fields
      { test := stream.test, text := stream.text ++ (bytes_to_string nm ++ " \x7b") } with
  | none => rfl
  | some r => simp [stream_add_close]

/-- C15: for every type name and every sentinel-terminated formatter-entry sequence, `format`
of the formatter built by `mock_struct_formatter` writes the type name, a blank and an opening
brace, then, for each entry in front of the sentinel, in order, what that entry's child
formatter writes when invoked on the base plus the entry's offset, followed by `, `, then a
closing brace; what follows the sentinel is not rendered.  For two fields whose children
write `t1` and `t2` the text is `<type_name> {t1, t2, }`, and for no field `<type_name> {}`. -/
theorem struct_formatter_text (abi : Abi) (test test1 : kunit) (type_name : Nat)
    (fields : List (Nat × mock_param_formatter)) (sentinel_offset : Nat)
    (tail : List mock_struct_formatter_entry) (f : mock_param_formatter)
    (hbuild : mock_struct_formatter abi test type_name
      (fields.map (fun f => ⟨f.1, some f.2⟩) ++ ⟨sentinel_offset, none⟩ :: tail) = (some f, test1))
    (stream : kunit_stream) (pparam base : Nat) (nm : List Byte)
    (hptr : CONVERT_TO_ACTUAL_TYPE abi .ptr stream.test.mem pparam = some (base : Int))
    (hname : load_cstr stream.test.mem type_name = some nm)
    (hin : ∀ f ∈ fields, base + f.1 < 2 ^ abi.long_bits) :
    f.format stream pparam =
        (run_format_fields base fields
            { stream with text := stream.text ++ (bytes_to_string nm ++ " \x7b") }).map
          (fun s => { s with text := s.text ++ "\x7d" }) ∧
      (fields = [] →
        f.format stream pparam =
          some { stream with text := stream.text ++ (bytes_to_string nm ++ " \x7b\x7d") }) ∧
      ∀ (o1 o2 : Nat) (c1 c2 : mock_param_formatter) (t1 t2 : String),
        fields = [(o1, c1), (o2, c2)] →
        c1.format { stream with text := stream.text ++ (bytes_to_string nm ++ " \x7b") }
            (base + o1) =
          some { stream with text := stream.text ++ (bytes_to_string nm ++ " \x7b") ++ t1 } →
        c2.format { stream with text := stream.text ++ (bytes_to_string nm ++ " \x7b") ++ t1 ++
            ", " } (base + o2) =
          some { stream with text := stream.text ++ (bytes_to_string nm ++ " \x7b") ++ t1 ++
            ", " ++ t2 } →
        f.format stream pparam =
          some { stream with text := stream.text ++
            (bytes_to_string nm ++ " \x7b" ++ t1 ++ ", " ++ t2 ++ ", " ++ "\x7d") } := by
  have hf := mock_struct_formatter_some abi test test1 type_name _ f hbuild
  have hmain : f.format stream pparam =
        (run_format_fields base fields
            { stream with text := stream.text ++ (bytes_to_string nm ++ " \x7b") }).map
          (fun s => { s with text := s.text ++ "\x7d" }) := by
    rw [hf]
    exact mock_format_struct_eq abi type_name fields sentinel_offset tail stream pparam base nm
      hptr hname hin
  refine ⟨hmain, ?_, ?_⟩
  · intro h0
    rw [hmain, h0]
    simp [run_format_fields, String.append_assoc]
  · intro o1 o2 c1 c2 t1 t2 h h1 h2
    rw [hmain, h]
    simp only [run_format_fields, h1, h2, Option.map_some']
    simp [String.append_assoc]

/-- Witness of C15: the struct formatter named `foo` over two `int` fields at the offsets 0 and
4, on the structure of `mem_struct` at address 32. -/
theorem struct_formatter_text_witness :
    (mock_param_formatter.mk 48 (mock_format_struct abi_arm64 48
        [⟨0, some (int_formatter_example abi_arm64)⟩,
         ⟨4, some (int_formatter_example abi_arm64)⟩, ⟨0, none⟩])).format ⟨test_struct, ""⟩ 8 =
      some ⟨test_struct, "" ++ (bytes_to_string [102, 111, 111] ++ " \x7b" ++ "5" ++ ", " ++
        "56" ++ ", " ++ "\x7d")⟩ :=
  (struct_formatter_text abi_arm64 test_struct
    (mock_struct_formatter abi_arm64 test_struct 48
      [⟨0, some (int_formatter_example abi_arm64)⟩,
       ⟨4, some (int_formatter_example abi_arm64)⟩, ⟨0, none⟩]).2 48
    [(0, int_formatter_example abi_arm64), (4, int_formatter_example abi_arm64)] 0 []
    ⟨48, mock_format_struct abi_arm64 48
        [⟨0, some (int_formatter_example abi_arm64)⟩,
         ⟨4, some (int_formatter_example abi_arm64)⟩, ⟨0, none⟩]⟩ rfl ⟨test_struct, ""⟩ 8 32
    [102, 111, 111] (by decide) (by decide) (by decide)).2.2 0 4 _ _ "5" "56" rfl
    (by decide) (by decide)

/-- C14: every constructor that allocates returns the null handle, and leaves the test as it
was, whenever an allocation it performs fails, and returns an object whose operation and
fields are set from the arguments whenever its allocations succeed: the relational factories,
`kunit_memeq`, `kunit_streq`, `kunit_str_contains`, `kunit_struct_cmp`, `kunit_va_format_cmp`
(two allocations), `mock_param_capturer_create` and its `int` and pointer wrappers, the return
factories (whose member `ret` then holds the value), `invoke` and `mock_struct_formatter`. -/
theorem constructors_null_or_initialised (abi : Abi) (test : kunit) :
    (∀ (T : type_name) (op : rel_op) (expected : Int),
      ((kunit_kmalloc test (sizeof_mock_matcher abi T)).1 = 0 →
        DEFINE_MATCH_FACTORY abi T op test expected = (none, test)) ∧
      ((kunit_kmalloc test (sizeof_mock_matcher abi T)).1 ≠ 0 →
        DEFINE_MATCH_FACTORY abi T op test expected =
          (some ⟨DEFINE_MATCH_FUNC abi T op expected⟩,
            (kunit_kmalloc test (sizeof_mock_matcher abi T)).2))) ∧
    (∀ (buf size : Nat),
      ((kunit_kzalloc test (3 * (abi.long_bits / 8))).1 = 0 →
        kunit_memeq abi test buf size = (none, test)) ∧
      ((kunit_kzalloc test (3 * (abi.long_bits / 8))).1 ≠ 0 →
        kunit_memeq abi test buf size =
          (some ⟨match_memeq abi buf size⟩, (kunit_kzalloc test (3 * (abi.long_bits / 8))).2))) ∧
    (∀ (str : Nat),
      ((kunit_kzalloc test (2 * (abi.long_bits / 8))).1 = 0 →
        kunit_streq abi test str = (none, test) ∧
        kunit_str_contains abi test str = (none, test)) ∧
      ((kunit_kzalloc test (2 * (abi.long_bits / 8))).1 ≠ 0 →
        kunit_streq abi test str =
          (some ⟨match_streq abi str⟩, (kunit_kzalloc test (2 * (abi.long_bits / 8))).2) ∧
        kunit_str_contains abi test str =
          (some ⟨match_str_contains abi str⟩,
            (kunit_kzalloc test (2 * (abi.long_bits / 8))).2))) ∧
    (∀ (struct_name : Nat) (entries : List mock_struct_matcher_entry),
      ((kunit_kzalloc test (3 * (abi.long_bits / 8))).1 = 0 →
        kunit_struct_cmp abi test struct_name entries = (none, test)) ∧
      ((kunit_kzalloc test (3 * (abi.long_bits / 8))).1 ≠ 0 →
        kunit_struct_cmp abi test struct_name entries =
          (some ⟨match_struct abi struct_name entries⟩,
            (kunit_kzalloc test (3 * (abi.long_bits / 8))).2))) ∧
    (∀ (str_va_format : Nat) (fmt_matcher va_matcher : Option mock_param_matcher),
      ((kunit_kzalloc test (2 * (abi.long_bits / 8) * 3)).1 = 0 →
        kunit_va_format_cmp abi str_va_format test fmt_matcher va_matcher = (none, test)) ∧
      ((kunit_kzalloc test (2 * (abi.long_bits / 8) * 3)).1 ≠ 0 →
        (kunit_kzalloc (kunit_kzalloc test (2 * (abi.long_bits / 8) * 3)).2
          (3 * (abi.long_bits / 8))).1 = 0 →
        kunit_va_format_cmp abi str_va_format test fmt_matcher va_matcher =
          (none, (kunit_kzalloc test (2 * (abi.long_bits / 8) * 3)).2)) ∧
      ((kunit_kzalloc test (2 * (abi.long_bits / 8) * 3)).1 ≠ 0 →
        (kunit_kzalloc (kunit_kzalloc test (2 * (abi.long_bits / 8) * 3)).2
          (3 * (abi.long_bits / 8))).1 ≠ 0 →
        kunit_va_format_cmp abi str_va_format test fmt_matcher va_matcher =
          (some ⟨match_struct abi str_va_format
              [⟨offsetof_va_format_fmt, fmt_matcher⟩, ⟨offsetof_va_format_va abi, va_matcher⟩,
               ⟨0, none⟩]⟩,
            (kunit_kzalloc (kunit_kzalloc test (2 * (abi.long_bits / 8) * 3)).2
              (3 * (abi.long_bits / 8))).2))) ∧
    (∀ (child : Option mock_param_matcher) (capture_param : kunit → Nat → Option (Nat × kunit)),
      ((kunit_kzalloc test (4 * (abi.long_bits / 8))).1 = 0 →
        mock_param_capturer_create abi test child capture_param = (none, test) ∧
        mock_int_capturer_create abi test child = (none, test) ∧
        mock_ptr_capturer_create abi test child = (none, test)) ∧
      ((kunit_kzalloc test (4 * (abi.long_bits / 8))).1 ≠ 0 →
        mock_param_capturer_create abi test child capture_param =
          (some ⟨child, capture_param, 0⟩, (kunit_kzalloc test (4 * (abi.long_bits / 8))).2) ∧
        mock_int_capturer_create abi test child =
          (some ⟨child, mock_capture_int abi, 0⟩,
            (kunit_kzalloc test (4 * (abi.long_bits / 8))).2) ∧
        mock_ptr_capturer_create abi test child =
          (some ⟨child, mock_capture_ptr abi, 0⟩,
            (kunit_kzalloc test (4 * (abi.long_bits / 8))).2))) ∧
    (∀ (T : return_type_name) (ret : Int),
      ((kunit_kmalloc test (sizeof_mock_action abi T)).1 = 0 →
        DEFINE_RETURN_ACTION_FACTORY abi T test ret = some (none, test)) ∧
      ((kunit_kmalloc test (sizeof_mock_action abi T)).1 ≠ 0 →
        ∃ mem1,
          DEFINE_RETURN_ACTION_FACTORY abi T test ret =
            some (some ⟨DEFINE_RETURN_ACTION_FUNC abi T test.brk⟩,
              ⟨mem1, test.brk + sizeof_mock_action abi T⟩) ∧
          (T.has_value abi ret →
            load_val abi T.object_type mem1 (test.brk + offsetof_ret abi T) = some ret))) ∧
    (∀ (ptest : Nat) (invokable : Nat → kunit → Nat → Int → Option (Nat × kunit)),
      ((kunit_kmalloc test (3 * (abi.long_bits / 8))).1 = 0 →
        invoke abi ptest test invokable = (none, test)) ∧
      ((kunit_kmalloc test (3 * (abi.long_bits / 8))).1 ≠ 0 →
        invoke abi ptest test invokable =
          (some ⟨do_invoke ⟨ptest, invokable⟩⟩,
            (kunit_kmalloc test (3 * (abi.long_bits / 8))).2))) ∧
    (∀ (type_name : Nat) (entries : List mock_struct_formatter_entry),
      ((kunit_kzalloc test (4 * (abi.long_bits / 8))).1 = 0 →
        mock_struct_formatter abi test type_name entries = (none, test)) ∧
      ((kunit_kzalloc test (4 * (abi.long_bits / 8))).1 ≠ 0 →
        mock_struct_formatter abi test type_name entries =
          (some ⟨type_name, mock_format_struct abi type_name entries⟩,
            (kunit_kzalloc test (4 * (abi.long_bits / 8))).2))) := by
  refine ⟨?_, ?_, ?_, ?_, ?_, ?_, ?_, ?_, ?_⟩
  · intro T op expected
    constructor
    · intro h
      simp only [DEFINE_MATCH_FACTORY, kmalloc_fail test _ h, if_true]
    · intro h
      obtain ⟨hk, h0, _⟩ := kmalloc_ok test _ h
      simp only [DEFINE_MATCH_FACTORY, hk, if_neg h0]
  · intro buf size
    constructor
    · intro h
      simp only [kunit_memeq, kzalloc_fail test _ h, if_true]
    · intro h
      obtain ⟨hk, h0, _⟩ := kzalloc_ok test _ h
      simp only [kunit_memeq, hk, if_neg h0]
  · intro str
    constructor
    · intro h
      simp only [kunit_streq, kunit_str_contains, kzalloc_fail test _ h, if_true, and_self]
    · intro h
      obtain ⟨hk, h0, _⟩ := kzalloc_ok test _ h
      simp only [kunit_streq, kunit_str_contains, hk, if_neg h0, and_self]
  · intro struct_name entries
    constructor
    · intro h
      simp only [kunit_struct_cmp, kzalloc_fail test _ h, if_true]
    · intro h
      obtain ⟨hk, h0, _⟩ := kzalloc_ok test _ h
      simp only [kunit_struct_cmp, hk, if_neg h0]
  · intro str_va_format fmt_matcher va_matcher
    refine ⟨?_, ?_, ?_⟩
    · intro h
      simp only [kunit_va_format_cmp, kzalloc_fail test _ h, if_true]
    · intro h h2
      obtain ⟨hk, h0, _⟩ := kzalloc_ok test _ h
      rw [hk] at h2
      simp only [kunit_va_format_cmp, hk, if_neg h0, kunit_struct_cmp,
        kzalloc_fail _ _ h2, if_true]
    · intro h h2
      obtain ⟨hk, h0, _⟩ := kzalloc_ok test _ h
      rw [hk] at h2
      obtain ⟨hk2, h02, _⟩ := kzalloc_ok _ _ h2
      simp only [kunit_va_format_cmp, hk, if_neg h0, kunit_struct_cmp, hk2, if_neg h02,
        INIT_MOCK_STRUCT_MATCHER_ENTRY, INIT_MOCK_STRUCT_MATCHER_ENTRY_LAST]
  · intro child capture_param
    constructor
    · intro h
      simp only [mock_int_capturer_create, mock_ptr_capturer_create, mock_param_capturer_create,
        kzalloc_fail test _ h, if_true, and_self]
    · intro h
      obtain ⟨hk, h0, _⟩ := kzalloc_ok test _ h
      simp only [mock_int_capturer_create, mock_ptr_capturer_create, mock_param_capturer_create,
        hk, if_neg h0, and_self]
  · intro T ret
    constructor
    · intro h
      exact return_factory_fail abi T test ret h
    · intro h
      obtain ⟨mem1, hst, hf⟩ := return_factory_ok abi T test ret h
      refine ⟨mem1, hf, ?_⟩
      intro hv
      exact load_store_val abi T.object_type test.mem mem1 _ ret
        (return_object_value abi T ret hv) hst
  · intro ptest invokable
    constructor
    · intro h
      simp only [invoke, kmalloc_fail test _ h, if_true]
    · intro h
      obtain ⟨hk, h0, _⟩ := kmalloc_ok test _ h
      simp only [invoke, hk, if_neg h0]
  · intro type_name entries
    constructor
    · intro h
      simp only [mock_struct_formatter, kzalloc_fail test _ h, if_true]
    · intro h
      obtain ⟨hk, h0, _⟩ := kzalloc_ok test _ h
      simp only [mock_struct_formatter, hk, if_neg h0]

end KunitMocks
